import Mathlib

/- Shallow embedding of xapian-core/backends/dbcheck.cc: the reserve_doclens
   helper and Xapian::Database::check.  The external collaborators used by
   check (the filesystem, the low-level chert opener, the glass version
   record, the per-table checkers, the changes-file checker, the allocator
   behind vector::reserve) are modelled as an explicit environment of
   oracles, and every collaborator call is recorded in an event trace so
   that the calling discipline (order of table checks, arguments passed,
   threading of the shared doclens vector) can be stated and proved.
   The build modelled is the usual one with both backends enabled
   (XAPIAN_HAS_CHERT_BACKEND and XAPIAN_HAS_GLASS_BACKEND) on a POSIX
   platform (the __WIN32__ backslash handling is dead code there). -/

namespace DbCheck

/-- Outcome of an attempted vector reservation; an injectable hook standing
for the C++ allocator behind std::vector::reserve: success, std::bad_alloc,
or std::length_error. -/
inductive ReserveOutcome where
  | ok
  | badAlloc
  | lengthError
deriving DecidableEq

/-- A std::vector of Xapian::termcount: its contents and current capacity.
std::vector::reserve grows the capacity to at least the requested value and
never shrinks it. -/
structure DoclensVec where
  data : List Nat
  cap : Nat
deriving DecidableEq

/-- The empty, freshly constructed doclens vector declared at the top of
Database::check. -/
def emptyDoclens : DoclensVec := ⟨[], 0⟩

/-- Message written when the doclens reservation is skipped because the block
would be at least 1GB (dbcheck.cc lines 60-63). -/
def tooLargeMsg : String :=
  "Cross-checking document lengths between the postlist and termlist tables would use more than 1GB of memory, so skipping that check"

/-- Message written when vector::reserve throws std::bad_alloc. -/
def allocFailMsg : String :=
  "Couldn\u0027t allocate enough memory for cross-checking document lengths between the postlist and termlist tables, so skipping that check"

/-- Message written when vector::reserve throws std::length_error. -/
def lengthFailMsg : String :=
  "Couldn\u0027t allocate enough elements for cross-checking document lengths between the postlist and termlist tables, so skipping that check"

/-- Size in bytes of Xapian::termcount, an unsigned 32-bit count type; the
source comment at the top of dbcheck.cc prices the doclens cross-check at
"(4 * last_docid()) bytes". -/
def termcountSize : Nat := 4

/-- The guard threshold of reserve_doclens:
0x40000000ul / sizeof(Xapian::termcount). -/
def doclenThreshold : Nat := 0x40000000 / termcountSize

/-- Modelled from the spec: Xapian::docid is an unsigned 32-bit document id
(its typedef lives in a public header outside the checked source), so
static_cast of -1 — the placeholder used to "set it to its maximum value to
suppress errors" — is 2^32 - 1, the maximum representable value. -/
def docidMax : Nat := 2 ^ 32 - 1

/-- Modelled from the spec: the options bitmask recognises a FIX flag
permitting metadata repair ("apply fixes"); the numeric constant lives in a
public header outside the checked source, and only its identity as one
dedicated bit of the mask matters here. -/
def DBCHECK_FIX : Nat := 16

/-- reserve_doclens from dbcheck.cc lines 54-81: when the memory block needed
by the vector would be >= 1GB, write a message and return without attempting
the allocation; otherwise attempt to reserve last_docid + 1 elements,
swallowing std::bad_alloc and std::length_error with distinct messages.
Returns the (possibly grown) vector and the messages written to the sink;
it touches no error count. -/
def reserve_doclens (hook : Nat → ReserveOutcome) (doclens : DoclensVec)
    (last_docid : Nat) (out : Bool) : DoclensVec × List String :=
  if doclenThreshold ≤ last_docid then
    (doclens, if out then [tooLargeMsg] else [])
  else
    match hook (last_docid + 1) with
    | .ok => ({ doclens with cap := max doclens.cap (last_docid + 1) }, [])
    | .badAlloc => (doclens, if out then [allocFailMsg] else [])
    | .lengthError => (doclens, if out then [lengthFailMsg] else [])

/-- The arguments of one call to check_chert_table: table name, table path,
the value behind the revision pointer (none models a NULL rev_ptr), the
options, the doclens vector handed over, and the last docid bound. -/
structure ChertCall where
  name : String
  tpath : String
  rev : Option Nat
  opts : Nat
  doclens : DoclensVec
  lastDocid : Nat
deriving DecidableEq

/-- The arguments of one call to check_glass_table: table name, database
directory, the version record passed (its revision and last docid), the
options, the doclens vector handed over, and the last docid bound. -/
structure GlassCall where
  name : String
  dir : String
  version : Nat × Nat
  opts : Nat
  doclens : DoclensVec
  lastDocid : Nat
deriving DecidableEq

/-- One observable step of a Database::check run: a sink message, a call of
reserve_doclens, a per-table checker call, a changes-file call, or a
metadata-record read/recreate. -/
inductive Event where
  | msg (s : String)
  | reserveCall (lastDocid : Nat)
  | chertCheck (c : ChertCall)
  | glassCheck (c : GlassCall)
  | changesCheck (r : Nat) (file : String)
  | versionReadAndCheck
  | versionCreate
deriving DecidableEq

/-- Exceptions Database::check can let escape: FeatureUnavailableError for
retired formats, DatabaseError for an unrecognised path, and whatever a
GlassVersion read or a GlassChanges scan throws (propagated unguarded). -/
inductive CheckError where
  | featureUnavailable (msg : String)
  | databaseError (msg : String)
  | versionFileError (msg : String)
  | changesError (msg : String)
deriving DecidableEq

/-- The environment of external collaborators consumed by Database::check.
files is the filesystem existence test (both stat and file_exists);
chertOpen models the ChertDatabase open / get_lastdocid / get_revision_number
block, returning (last_docid, revision) or the description of the
Xapian::Error thrown; chertTable and glassTable are the per-table checkers
returning (error count, doclens after the call, revision written back);
chertVersionOk tells whether ChertVersion::read_and_check succeeds;
glassOpen is the openability probe; glassVersionRead models
GlassVersion::read returning (revision, last_docid) or throwing;
glassChanges models GlassChanges::check; reserveHook drives
vector::reserve. -/
structure Env where
  files : String → Bool
  chertOpen : String → Except String (Nat × Nat)
  reserveHook : Nat → ReserveOutcome
  chertTable : String → String → Option Nat → Nat → DoclensVec → Nat → Bool → Nat × DoclensVec × Nat
  chertVersionOk : String → Bool
  glassOpen : String → Except String Unit
  glassVersionRead : String → Except String (Nat × Nat)
  glassChanges : String → Except String Unit
  glassTable : String → String → Nat × Nat → Nat → DoclensVec → Nat → Bool → Nat × DoclensVec

/-- Perform one check_chert_table call with the recorded arguments. -/
def runChertCall (env : Env) (out : Bool) (c : ChertCall) : Nat × DoclensVec × Nat :=
  env.chertTable c.name c.tpath c.rev c.opts c.doclens c.lastDocid out

/-- Perform one check_glass_table call with the recorded arguments. -/
def runGlassCall (env : Env) (out : Bool) (c : GlassCall) : Nat × DoclensVec :=
  env.glassTable c.name c.dir c.version c.opts c.doclens c.lastDocid out

/-- Error count contributed by one event of the trace: per-table checker
calls contribute their returned count, everything else contributes nothing. -/
def eventErrors (env : Env) (out : Bool) : Event → Nat
  | .chertCheck c => (runChertCall env out c).1
  | .glassCheck c => (runGlassCall env out c).1
  | _ => 0

/-- Total error count contributed by a trace segment. -/
def errSum (env : Env) (out : Bool) (evs : List Event) : Nat :=
  (evs.map (eventErrors env out)).sum

/-- "Database couldn't be opened for reading" message followed by the error
description, as written by both whole-database branches. -/
def openFailMsg (e : String) : String :=
  "Database couldn\u0027t be opened for reading: " ++ e ++ "\nContinuing check anyway"

/-- The fixed chert table enumeration order of dbcheck.cc lines 131-134. -/
def chertTables : List String :=
  ["record", "termlist", "postlist", "position", "spelling", "synonym"]

/-- The fixed glass table enumeration order of dbcheck.cc lines 205-208. -/
def glassTables : List String :=
  ["docdata", "termlist", "postlist", "position", "spelling", "synonym"]

/-- State threaded through the chert table loop: the running error count,
the shared doclens vector, the value of the rev variable the rev_ptr points
at, and the trace so far. -/
structure ChertSt where
  errors : Nat
  doclens : DoclensVec
  rev : Nat
  events : List Event
deriving DecidableEq

/-- The "t:\n" header written before each chert table (dbcheck.cc line 141). -/
def headerEvents (out : Bool) (t : String) : List Event :=
  if out then [Event.msg (t ++ ":\n")] else []

/-- The skip message for a lazily created table whose .DB file is absent:
"Not present." for termlist, "Lazily created, and not yet used." otherwise
(dbcheck.cc lines 146-150). -/
def lazyMsg (t : String) : String :=
  if t == "termlist" then "Not present.\n" else "Lazily created, and not yet used.\n"

/-- Events of the skip branch for an absent lazily-created table. -/
def skipEvents (out : Bool) (t : String) : List Event :=
  if out then [Event.msg (lazyMsg t)] else []

/-- The check_chert_table call made for table t in the whole-database loop:
path "<path>/<t>", the rev_ptr pointing at the current rev value, the shared
doclens, and the database's last docid. -/
def mkChertCall (path : String) (opts : Nat) (st : ChertSt) (lastdoc : Nat)
    (t : String) : ChertCall :=
  ⟨t, path ++ "/" ++ t, some st.rev, opts, st.doclens, lastdoc⟩

/-- One iteration of the chert table loop (dbcheck.cc lines 135-158): write
the header, skip a lazily created table (anything but record and postlist)
whose .DB file is absent, otherwise invoke check_chert_table and accumulate
its error count, threading the doclens vector and the rev variable. -/
def chertTableStep (env : Env) (path : String) (opts : Nat) (out : Bool)
    (lastdoc : Nat) (st : ChertSt) (t : String) : ChertSt :=
  if t ≠ "record" ∧ t ≠ "postlist" ∧ env.files (path ++ "/" ++ t ++ ".DB") = false then
    { st with events := st.events ++ headerEvents out t ++ skipEvents out t }
  else
    { errors := st.errors + (runChertCall env out (mkChertCall path opts st lastdoc t)).1
      doclens := (runChertCall env out (mkChertCall path opts st lastdoc t)).2.1
      rev := (runChertCall env out (mkChertCall path opts st lastdoc t)).2.2
      events := st.events ++ headerEvents out t ++
        [Event.chertCheck (mkChertCall path opts st lastdoc t)] }

/-- The opening phase of the chert whole-database branch (dbcheck.cc lines
106-122): try to open the database to obtain last_docid and the revision,
calling reserve_doclens on success; on a Xapian::Error count one error,
describe it to the sink, and fall back to the placeholder last docid
(docid cast of -1) with rev still 0. -/
def chertOpenPhase (env : Env) (path : String) (out : Bool) : ChertSt × Nat :=
  match env.chertOpen path with
  | .ok dl =>
    let rd := reserve_doclens env.reserveHook emptyDoclens dl.1 out
    (⟨0, rd.1, dl.2, [Event.reserveCall dl.1] ++ rd.2.map Event.msg⟩, dl.1)
  | .error e =>
    (⟨1, emptyDoclens, 0, if out then [Event.msg (openFailMsg e)] else []⟩, docidMax)

/-- The chert table loop folded over the fixed table order. -/
def chertTablePhase (env : Env) (path : String) (opts : Nat) (out : Bool)
    (lastdoc : Nat) (st0 : ChertSt) : ChertSt :=
  chertTables.foldl (chertTableStep env path opts out lastdoc) st0

/-- The table-loop result of a chert whole-database check, starting from the
open phase's state and last docid. -/
def chertTablesResult (env : Env) (path : String) (opts : Nat) (out : Bool) :
    ChertSt :=
  chertTablePhase env path opts out (chertOpenPhase env path out).2
    (chertOpenPhase env path out).1

/-- The repair events of the chert branch (dbcheck.cc lines 160-168): exactly
when the table loop added no errors over pre_table_check_errors and
DBCHECK_FIX is set, ChertVersion::read_and_check runs, and ChertVersion::create
runs when it throws a DatabaseError. -/
def chertFixEvents (env : Env) (path : String) (opts : Nat) (out : Bool) :
    List Event :=
  if (chertTablesResult env path opts out).errors
      = (chertOpenPhase env path out).1.errors ∧ opts &&& DBCHECK_FIX ≠ 0 then
    Event.versionReadAndCheck ::
      (if env.chertVersionOk path then [] else [Event.versionCreate])
  else []

/-- The whole chert-database branch of Database::check (dbcheck.cc lines
103-168): open phase, table loop, then the conditional metadata repair. -/
def chertWholeCheck (env : Env) (path : String) (opts : Nat) (out : Bool) :
    Nat × List Event :=
  ((chertTablesResult env path opts out).errors,
   (chertTablesResult env path opts out).events ++ chertFixEvents env path opts out)

/-- The changes file of revision r: "<path>/changes<r>". -/
def chFile (path : String) (r : Nat) : String :=
  path ++ "/changes" ++ toString r

/-- The changes-log loop of the glass branch (dbcheck.cc lines 191-197): for
r from the current revision down to 1, call GlassChanges::check on the
changes file for r exactly when it exists; an exception from that call
propagates. -/
def changesLoop (env : Env) (path : String) : Nat → Except String (List Event)
  | 0 => .ok []
  | r + 1 =>
    if env.files (chFile path (r + 1)) then
      match env.glassChanges (chFile path (r + 1)) with
      | .error e => .error e
      | .ok _ =>
        match changesLoop env path r with
        | .error e => .error e
        | .ok evs => .ok (Event.changesCheck (r + 1) (chFile path (r + 1)) :: evs)
    else
      changesLoop env path r

/-- The check_glass_table call made for table t in the whole-database loop. -/
def mkGlassCall (dir : String) (ver : Nat × Nat) (opts : Nat) (lastdoc : Nat)
    (st : Nat × DoclensVec × List Event) (t : String) : GlassCall :=
  ⟨t, dir, ver, opts, st.2.1, lastdoc⟩

/-- One iteration of the glass table loop (dbcheck.cc lines 209-213): no
existence pre-test, just invoke check_glass_table and accumulate. -/
def glassTableStep (env : Env) (dir : String) (ver : Nat × Nat) (opts : Nat)
    (out : Bool) (lastdoc : Nat) (st : Nat × DoclensVec × List Event)
    (t : String) : Nat × DoclensVec × List Event :=
  (st.1 + (runGlassCall env out (mkGlassCall dir ver opts lastdoc st t)).1,
   (runGlassCall env out (mkGlassCall dir ver opts lastdoc st t)).2,
   st.2.2 ++ [Event.glassCheck (mkGlassCall dir ver opts lastdoc st t)])

/-- Error contribution of the glass openability probe (dbcheck.cc lines
177-187): one counted error when the open throws, none otherwise. -/
def glassOpenErrs (env : Env) (path : String) : Nat :=
  match env.glassOpen path with
  | .ok _ => 0
  | .error _ => 1

/-- Trace of the glass openability probe: the failure description when the
open throws and a sink is attached. -/
def glassOpenEvs (env : Env) (path : String) (out : Bool) : List Event :=
  match env.glassOpen path with
  | .ok _ => []
  | .error e => if out then [Event.msg (openFailMsg e)] else []

/-- The reserve_doclens call of the glass branch, with the version record's
last docid (dbcheck.cc lines 199-200). -/
def glassReserve (env : Env) (ver : Nat × Nat) (out : Bool) :
    DoclensVec × List String :=
  reserve_doclens env.reserveHook emptyDoclens ver.2 out

/-- The glass table loop folded over the fixed table order, starting from
the freshly reserved doclens vector. -/
def glassTablePhase (env : Env) (path : String) (ver : Nat × Nat) (opts : Nat)
    (out : Bool) : Nat × DoclensVec × List Event :=
  glassTables.foldl (glassTableStep env path ver opts out ver.2)
    (0, (glassReserve env ver out).1, [])

/-- The whole glass-database branch of Database::check (dbcheck.cc lines
176-213): the openability probe (failure counted, not fatal), the version
record read (unguarded — an error propagates), the descending changes-log
loop, reserve_doclens with the version record's last docid, then the six
table checks with no existence pre-test. -/
def glassWholeCheck (env : Env) (path : String) (opts : Nat) (out : Bool) :
    Except CheckError (Nat × List Event) :=
  match env.glassVersionRead path with
  | .error e => .error (.versionFileError e)
  | .ok ver =>
    match changesLoop env path ver.1 with
    | .error e => .error (.changesError e)
    | .ok cev =>
      .ok (glassOpenErrs env path + (glassTablePhase env path ver opts out).1,
        glassOpenEvs env path out ++ cev ++ [Event.reserveCall ver.2]
          ++ (glassReserve env ver out).2.map Event.msg
          ++ (glassTablePhase env path ver opts out).2.2)

/-- The backend tag of the single-table path (dbcheck.cc line 231). -/
inductive Backend where
  | unknown
  | chert
  | glass
deriving DecidableEq

def flintMsg : String := "Flint database support was removed in Xapian 1.3.0"
def brassMsg : String := "Brass database support was removed in Xapian 1.3.2"
def quartzMsg : String := "Quartz database support was removed in Xapian 1.1.0"
def notDbMsg : String := "Not a Xapian database or database table"

/-- endswith from stringutils.h, over the character list. -/
def strEndsWith (s sfx : String) : Bool :=
  sfx.toList.isSuffixOf s.toList

/-- Dropping the last n characters, as filename.resize in the source. -/
def strDropRight (s : String) (n : Nat) : String :=
  String.mk (s.toList.take (s.toList.length - n))

/-- Suffix stripping of a bare table path (dbcheck.cc lines 232-241): take
off a trailing ".", or ".DB" fixing the backend to chert, or ".glass"
fixing it to glass. -/
def stripSuffix (path : String) : String × Backend :=
  if strEndsWith path "." then (strDropRight path 1, .unknown)
  else if strEndsWith path ".DB" then (strDropRight path 3, .chert)
  else if strEndsWith path ".glass" then (strDropRight path 6, .glass)
  else (path, .unknown)

/-- Backend resolution of a bare table path (dbcheck.cc lines 231-252):
strip a suffix; when the backend is still unknown probe for
"<base>.DB" and then "<base>.glass"; when neither exists throw
DatabaseError("Not a Xapian database or database table"). -/
def resolveBackend (env : Env) (path : String) : Except CheckError (String × Backend) :=
  let fb := stripSuffix path
  match fb.2 with
  | .unknown =>
    if env.files (fb.1 ++ ".DB") then .ok (fb.1, .chert)
    else if env.files (fb.1 ++ ".glass") then .ok (fb.1, .glass)
    else .error (.databaseError notDbMsg)
  | b => .ok (fb.1, b)

/-- Lower-case a string character-wise, as the tolower loop of dbcheck.cc
lines 264-266. -/
def lowerString (s : String) : String := String.mk (s.toList.map Char.toLower)

/-- Split a path after its last slash, as filename.find_last_of in dbcheck.cc
lines 254-261: (directory including a trailing slash, basename). -/
def splitLastSlash (s : String) : String × String :=
  let rev := s.toList.reverse
  (String.mk (rev.dropWhile (fun c => c ≠ '/')).reverse,
   String.mk (rev.takeWhile (fun c => c ≠ '/')).reverse)

/-- The glass call of a bare single-table run on resolved base filename fn:
lower-cased basename as table name, the containing directory, the version
record read from it, and the maximal placeholder last docid over the fresh
(empty) doclens vector. -/
def bareGlassCall (fn : String) (ver : Nat × Nat) (opts : Nat) : GlassCall :=
  ⟨lowerString (splitLastSlash fn).2, (splitLastSlash fn).1, ver, opts,
    emptyDoclens, docidMax⟩

/-- The chert call of a bare single-table run on resolved base filename fn:
lower-cased basename as table name, the full base path, a NULL rev_ptr, and
the maximal placeholder last docid over the fresh (empty) doclens vector. -/
def bareChertCall (fn : String) (opts : Nat) : ChertCall :=
  ⟨lowerString (splitLastSlash fn).2, fn, none, opts, emptyDoclens, docidMax⟩

/-- The single table check performed after backend resolution (dbcheck.cc
lines 254-299). -/
def bareTableRun (env : Env) (opts : Nat) (out : Bool)
    (fb : String × Backend) : Except CheckError (Nat × List Event) :=
  match fb.2 with
  | .unknown => .ok (0, [])
  | .glass =>
    match env.glassVersionRead (splitLastSlash fb.1).1 with
    | .error e => .error (.versionFileError e)
    | .ok ver =>
      .ok ((runGlassCall env out (bareGlassCall fb.1 ver opts)).1,
        [Event.glassCheck (bareGlassCall fb.1 ver opts)])
  | .chert =>
    if env.files ((splitLastSlash fb.1).1 ++ "/iamflint") then
      .error (.featureUnavailable flintMsg)
    else if env.files ((splitLastSlash fb.1).1 ++ "/iambrass") then
      .error (.featureUnavailable brassMsg)
    else
      .ok ((runChertCall env out (bareChertCall fb.1 opts)).1,
        [Event.chertCheck (bareChertCall fb.1 opts)])

/-- The bare single-table branch of Database::check (dbcheck.cc lines
215-299): the three retired-format markers checked in fixed precedence
(flint, brass, quartz via record_DB), suffix stripping and backend
resolution, then the single table check. -/
def bareCheck (env : Env) (path : String) (opts : Nat) (out : Bool) :
    Except CheckError (Nat × List Event) :=
  if env.files (path ++ "/iamflint") then .error (.featureUnavailable flintMsg)
  else if env.files (path ++ "/iambrass") then .error (.featureUnavailable brassMsg)
  else if env.files (path ++ "/record_DB") then .error (.featureUnavailable quartzMsg)
  else
    match resolveBackend env path with
    | .error e => .error e
    | .ok fb => bareTableRun env opts out fb

/-- The effective options: with no sink, all output-only options are
cleared, keeping only DBCHECK_FIX (dbcheck.cc lines 89-93). -/
def effOpts (opts : Nat) (out : Bool) : Nat :=
  if out then opts else opts &&& DBCHECK_FIX

/-- Xapian::Database::check (dbcheck.cc lines 86-302): mask the options when
no sink is attached, then dispatch on the iamchert and iamglass markers to
the chert whole-database branch, the glass whole-database branch, or the
bare single-table branch.  Returns the error count and the event trace, or
the exception thrown. -/
def check (env : Env) (path : String) (opts0 : Nat) (out : Bool) :
    Except CheckError (Nat × List Event) :=
  if env.files (path ++ "/iamchert") then
    .ok (chertWholeCheck env path (effOpts opts0 out) out)
  else if env.files (path ++ "/iamglass") then
    glassWholeCheck env path (effOpts opts0 out) out
  else
    bareCheck env path (effOpts opts0 out) out

/-- The chert table-checker calls recorded in a trace, in order. -/
def callsOf (evs : List Event) : List ChertCall :=
  evs.filterMap fun e => match e with | .chertCheck c => some c | _ => none

/-- The names of the chert table-checker calls of a trace, in order. -/
def callNamesOf (evs : List Event) : List String :=
  (callsOf evs).map ChertCall.name

/-- Whether table t is invoked (rather than skipped) by the chert loop:
record and postlist always are, the others only when their .DB file exists. -/
def invokedB (env : Env) (path : String) (t : String) : Bool :=
  t == "record" || t == "postlist" || env.files (path ++ "/" ++ t ++ ".DB")

/-- The doclens vector a chert table call leaves behind. -/
def chertCallOut (env : Env) (out : Bool) (c : ChertCall) : DoclensVec :=
  (runChertCall env out c).2.1

/-- The calls of a run share one threaded doclens storage: starting from d,
each call receives exactly the vector the previous call left behind. -/
def dchain (env : Env) (out : Bool) : DoclensVec → List ChertCall → Prop
  | _, [] => True
  | d, c :: rest => c.doclens = d ∧ dchain env out (chertCallOut env out c) rest

/-- The doclens vector left behind after a sequence of chert calls starting
from d. -/
def dlast (env : Env) (out : Bool) : DoclensVec → List ChertCall → DoclensVec
  | d, [] => d
  | _, c :: rest => dlast env out (chertCallOut env out c) rest

/-- The changes-file checks recorded in a trace: (revision, file). -/
def changesOf (evs : List Event) : List (Nat × String) :=
  evs.filterMap fun e => match e with | .changesCheck r f => some (r, f) | _ => none

/-- The revisions r, r-1, ..., 1 in descending order. -/
def revsDescending : Nat → List Nat
  | 0 => []
  | r + 1 => (r + 1) :: revsDescending r

/-- The changes events the glass loop produces going down from revision r. -/
def changesEvList (env : Env) (path : String) : Nat → List Event
  | 0 => []
  | r + 1 =>
    (if env.files (chFile path (r + 1)) then
      [Event.changesCheck (r + 1) (chFile path (r + 1))] else [])
      ++ changesEvList env path r

/-- Whether a completed run recorded any reserve_doclens call. -/
def hasReserveCall : Except CheckError (Nat × List Event) → Bool
  | .ok p => p.2.any fun e => match e with | .reserveCall _ => true | _ => false
  | .error _ => false

/-- Whether a per-table checker call received no revision context: a chert
call with a NULL rev_ptr qualifies; a glass call never does, because
check_glass_table always receives the GlassVersion record, which carries the
current revision and per-table roots — it is the glass revision context. -/
def eventNoRevCtx : Event → Bool
  | .chertCheck c => c.rev.isNone
  | .glassCheck _ => false
  | _ => true

/-- Whether every table-checker call of a completed run came without
revision context. -/
def runNoRevCtx : Except CheckError (Nat × List Event) → Bool
  | .ok p => p.2.all eventNoRevCtx
  | .error _ => true

/-- A neutral environment for concrete runs: empty filesystem, failing chert
opener, succeeding allocator, per-table checkers reporting zero errors. -/
def envBase : Env where
  files := fun _ => false
  chertOpen := fun _ => .error "broken"
  reserveHook := fun _ => .ok
  chertTable := fun _ _ _ _ d _ _ => (0, d, 0)
  chertVersionOk := fun _ => true
  glassOpen := fun _ => .ok ()
  glassVersionRead := fun _ => .ok (0, 0)
  glassChanges := fun _ => .ok ()
  glassTable := fun _ _ _ _ d _ _ => (0, d)

/-- A chert whole database at "db" that opens fine with last docid 5 and
revision 7; only the mandatory tables are on disk. -/
def envChert : Env :=
  { envBase with
    files := fun s => s == "db/iamchert"
    chertOpen := fun _ => .ok (5, 7) }

/-- A chert whole database at "db" too broken to open. -/
def envChertFail : Env :=
  { envBase with files := fun s => s == "db/iamchert" }

/-- A glass whole database at "g" with current revision 3 and last docid 10,
where only the changes file of revision 2 survives. -/
def envGlass : Env :=
  { envBase with
    files := fun s => s == "g/iamglass" || s == "g/changes2"
    glassVersionRead := fun _ => .ok (3, 10) }

/-- A glass whole database at "g" whose version record cannot be read. -/
def envGlassVerFail : Env :=
  { envBase with
    files := fun s => s == "g/iamglass"
    glassVersionRead := fun _ => .error "bad" }

/-- A glass whole database at "g" that fails the openability probe but whose
version record reads fine. -/
def envGlassOpenFail : Env :=
  { envBase with
    files := fun s => s == "g/iamglass"
    glassOpen := fun _ => .error "oops"
    glassVersionRead := fun _ => .ok (2, 10) }

/-- A directory "f" holding only a retired-format flint marker. -/
def envFlint : Env :=
  { envBase with files := fun s => s == "f/iamflint" }

/-- A flint marker in the directory containing the bare table "d/t.DB"
(the source probes dir + "/iamflint" where dir keeps its trailing slash). -/
def envBareDirFlint : Env :=
  { envBase with files := fun s => s == "d//iamflint" }

/-- Sibling files foo.DB and foo.glass both present, to observe the probe
precedence for the suffixless bare path "foo". -/
def envBareBoth : Env :=
  { envBase with files := fun s => s == "foo.DB" || s == "foo.glass" }

/-- A bare glass table; the version record of its directory reads as
revision 5, last docid 10. -/
def envBareGlass : Env :=
  { envBase with glassVersionRead := fun _ => .ok (5, 10) }

/- ------------------------------------------------------------------ -/
/- Helper lemmas about the folds.                                      -/
/- ------------------------------------------------------------------ -/

theorem foldl_preserve {α β : Type _} (g : α → β → α) (P : α → Prop)
    (h : ∀ st t, P st → P (g st t)) :
    ∀ (ts : List β) (st : α), P st → P (ts.foldl g st)
  | [], _, hst => hst
  | t :: ts, st, hst => foldl_preserve g P h ts (g st t) (h st t hst)

theorem callsOf_append (a b : List Event) :
    callsOf (a ++ b) = callsOf a ++ callsOf b := by
  simp [callsOf]

theorem callsOf_headerEvents (out : Bool) (t : String) :
    callsOf (headerEvents out t) = [] := by
  cases out <;> simp [headerEvents, callsOf]

theorem callsOf_skipEvents (out : Bool) (t : String) :
    callsOf (skipEvents out t) = [] := by
  cases out <;> simp [skipEvents, callsOf]

theorem callsOf_single_chert (c : ChertCall) :
    callsOf [Event.chertCheck c] = [c] := by
  simp [callsOf]

theorem mem_headerEvents (out : Bool) (t : String) (e : Event)
    (h : e ∈ headerEvents out t) : ∃ s, e = Event.msg s := by
  cases out
  · simp [headerEvents] at h
  · simp [headerEvents] at h
    exact ⟨_, h⟩

theorem mem_skipEvents (out : Bool) (t : String) (e : Event)
    (h : e ∈ skipEvents out t) : ∃ s, e = Event.msg s := by
  cases out
  · simp [skipEvents] at h
  · simp [skipEvents] at h
    exact ⟨_, h⟩

theorem invokedB_eq_false (env : Env) (path t : String) :
    invokedB env path t = false ↔
      (t ≠ "record" ∧ t ≠ "postlist" ∧
        env.files (path ++ "/" ++ t ++ ".DB") = false) := by
  simp [invokedB, not_or, and_assoc]

theorem chertTableStep_names (env : Env) (path : String) (opts : Nat)
    (out : Bool) (lastdoc : Nat) (st : ChertSt) (t : String) :
    callNamesOf (chertTableStep env path opts out lastdoc st t).events
      = callNamesOf st.events ++ (if invokedB env path t then [t] else []) := by
  by_cases hb : invokedB env path t = true
  · have h : ¬(t ≠ "record" ∧ t ≠ "postlist" ∧
        env.files (path ++ "/" ++ t ++ ".DB") = false) := by
      intro hcon
      rw [(invokedB_eq_false env path t).2 hcon] at hb
      exact Bool.false_ne_true hb
    unfold chertTableStep
    rw [if_neg h]
    show callNamesOf (st.events ++ headerEvents out t ++
        [Event.chertCheck (mkChertCall path opts st lastdoc t)]) = _
    rw [callNamesOf, callsOf_append, callsOf_append, callsOf_headerEvents,
      callsOf_single_chert, List.append_nil]
    simp [callNamesOf, mkChertCall, hb]
  · have hb' : invokedB env path t = false := by
      cases hEq : invokedB env path t
      · rfl
      · exact absurd hEq hb
    unfold chertTableStep
    rw [if_pos ((invokedB_eq_false env path t).1 hb')]
    show callNamesOf (st.events ++ headerEvents out t ++ skipEvents out t) = _
    rw [callNamesOf, callsOf_append, callsOf_append, callsOf_headerEvents,
      callsOf_skipEvents, List.append_nil, List.append_nil]
    simp [callNamesOf, hb']

theorem chertFold_names (env : Env) (path : String) (opts : Nat) (out : Bool)
    (lastdoc : Nat) :
    ∀ (ts : List String) (st : ChertSt),
      callNamesOf ((ts.foldl (chertTableStep env path opts out lastdoc) st).events)
        = callNamesOf st.events ++ ts.filter (invokedB env path)
  | [], st => by simp
  | t :: ts, st => by
    rw [List.foldl_cons, chertFold_names env path opts out lastdoc ts _,
      chertTableStep_names, List.filter_cons]
    by_cases hb : invokedB env path t = true <;> simp [hb]

theorem errSum_append (env : Env) (out : Bool) (a b : List Event) :
    errSum env out (a ++ b) = errSum env out a + errSum env out b := by
  simp [errSum]

theorem errSum_headerEvents (env : Env) (out : Bool) (t : String) :
    errSum env out (headerEvents out t) = 0 := by
  cases out <;> simp [headerEvents, errSum, eventErrors]

theorem errSum_skipEvents (env : Env) (out : Bool) (t : String) :
    errSum env out (skipEvents out t) = 0 := by
  cases out <;> simp [skipEvents, errSum, eventErrors]

theorem errSum_msgs (env : Env) (out : Bool) (ss : List String) :
    errSum env out (ss.map Event.msg) = 0 := by
  induction ss with
  | nil => rfl
  | cons s ss ih => simp [errSum, eventErrors] at ih ⊢; exact ih

theorem errSum_single_chert (env : Env) (out : Bool) (c : ChertCall) :
    errSum env out [Event.chertCheck c] = (runChertCall env out c).1 := by
  simp [errSum, eventErrors]

theorem chertTableStep_pres_errors (env : Env) (path : String) (opts : Nat)
    (out : Bool) (lastdoc : Nat) (B : Nat) (st : ChertSt) (t : String)
    (h : st.errors = B + errSum env out st.events) :
    (chertTableStep env path opts out lastdoc st t).errors
      = B + errSum env out (chertTableStep env path opts out lastdoc st t).events := by
  unfold chertTableStep
  split
  · show st.errors = B + errSum env out
      (st.events ++ headerEvents out t ++ skipEvents out t)
    rw [errSum_append, errSum_append, errSum_headerEvents, errSum_skipEvents, h]
    omega
  · show st.errors + (runChertCall env out (mkChertCall path opts st lastdoc t)).1
      = B + errSum env out (st.events ++ headerEvents out t ++
        [Event.chertCheck (mkChertCall path opts st lastdoc t)])
    rw [errSum_append, errSum_append, errSum_headerEvents, errSum_single_chert, h]
    omega

theorem chertFold_errors (env : Env) (path : String) (opts : Nat) (out : Bool)
    (lastdoc : Nat) (B : Nat) (ts : List String) (st : ChertSt)
    (h : st.errors = B + errSum env out st.events) :
    (ts.foldl (chertTableStep env path opts out lastdoc) st).errors
      = B + errSum env out ((ts.foldl (chertTableStep env path opts out lastdoc) st).events) :=
  foldl_preserve _ (fun s => s.errors = B + errSum env out s.events)
    (fun s t hs => chertTableStep_pres_errors env path opts out lastdoc B s t hs)
    ts st h

theorem chertTableStep_mem (env : Env) (path : String) (opts : Nat)
    (out : Bool) (lastdoc : Nat) (st : ChertSt) (t : String) (e : Event)
    (h : e ∈ st.events) :
    e ∈ (chertTableStep env path opts out lastdoc st t).events := by
  unfold chertTableStep
  split <;> simp [h]

theorem chertFold_mem (env : Env) (path : String) (opts : Nat) (out : Bool)
    (lastdoc : Nat) (e : Event) (ts : List String) (st : ChertSt)
    (h : e ∈ st.events) :
    e ∈ ((ts.foldl (chertTableStep env path opts out lastdoc) st).events) :=
  foldl_preserve _ (fun s => e ∈ s.events)
    (fun s t hs => chertTableStep_mem env path opts out lastdoc s t e hs) ts st h

theorem chertTableStep_events_sub (env : Env) (path : String) (opts : Nat)
    (out : Bool) (lastdoc : Nat) (st : ChertSt) (t : String) (e : Event)
    (h : e ∈ (chertTableStep env path opts out lastdoc st t).events) :
    e ∈ st.events ∨ (∃ s, e = .msg s) ∨ ∃ c, e = .chertCheck c := by
  unfold chertTableStep at h
  split at h
  · replace h : e ∈ st.events ++ headerEvents out t ++ skipEvents out t := h
    rcases List.mem_append.1 h with h' | h'
    · rcases List.mem_append.1 h' with h'' | h''
      · exact Or.inl h''
      · exact Or.inr (Or.inl (mem_headerEvents out t e h''))
    · exact Or.inr (Or.inl (mem_skipEvents out t e h'))
  · replace h : e ∈ st.events ++ headerEvents out t ++
      [Event.chertCheck (mkChertCall path opts st lastdoc t)] := h
    rcases List.mem_append.1 h with h' | h'
    · rcases List.mem_append.1 h' with h'' | h''
      · exact Or.inl h''
      · exact Or.inr (Or.inl (mem_headerEvents out t e h''))
    · exact Or.inr (Or.inr ⟨_, List.mem_singleton.1 h'⟩)

theorem chertFold_not_mem (env : Env) (path : String) (opts : Nat) (out : Bool)
    (lastdoc : Nat) (e : Event) (hmsg : ∀ s, e ≠ .msg s)
    (hcall : ∀ c, e ≠ .chertCheck c) (ts : List String) (st : ChertSt)
    (h : e ∉ st.events) :
    e ∉ ((ts.foldl (chertTableStep env path opts out lastdoc) st).events) :=
  foldl_preserve _ (fun s => e ∉ s.events)
    (fun s t hs hin => by
      rcases chertTableStep_events_sub env path opts out lastdoc s t e hin with
        h1 | ⟨s', h1⟩ | ⟨c, h1⟩
      · exact hs h1
      · exact hmsg s' h1
      · exact hcall c h1) ts st h

theorem chertTableStep_no_msg (env : Env) (path : String) (opts : Nat)
    (lastdoc : Nat) (st : ChertSt) (t : String)
    (h : ∀ s, Event.msg s ∉ st.events) (s : String) :
    Event.msg s ∉ (chertTableStep env path opts false lastdoc st t).events := by
  unfold chertTableStep
  split <;> simp [headerEvents, skipEvents, h s]

theorem chertFold_no_msg (env : Env) (path : String) (opts : Nat)
    (lastdoc : Nat) (ts : List String) (st : ChertSt)
    (h : ∀ s, Event.msg s ∉ st.events) (s : String) :
    Event.msg s ∉ ((ts.foldl (chertTableStep env path opts false lastdoc) st).events) :=
  foldl_preserve _ (fun st' => ∀ s', Event.msg s' ∉ st'.events)
    (fun st' t hs s' => chertTableStep_no_msg env path opts lastdoc st' t hs s')
    ts st h s

theorem chertTableStep_call_args (env : Env) (path : String) (opts : Nat)
    (out : Bool) (lastdoc : Nat) (st : ChertSt) (t : String)
    (h : ∀ c ∈ callsOf st.events, c.lastDocid = lastdoc ∧ c.rev.isSome = true) :
    ∀ c ∈ callsOf (chertTableStep env path opts out lastdoc st t).events,
      c.lastDocid = lastdoc ∧ c.rev.isSome = true := by
  unfold chertTableStep
  split
  · intro c hc
    replace hc : c ∈ callsOf (st.events ++ headerEvents out t ++ skipEvents out t) := hc
    rw [callsOf_append, callsOf_append, callsOf_headerEvents, callsOf_skipEvents,
      List.append_nil, List.append_nil] at hc
    exact h c hc
  · intro c hc
    replace hc : c ∈ callsOf (st.events ++ headerEvents out t ++
      [Event.chertCheck (mkChertCall path opts st lastdoc t)]) := hc
    rw [callsOf_append, callsOf_append, callsOf_headerEvents,
      callsOf_single_chert, List.append_nil] at hc
    rcases List.mem_append.1 hc with hc | hc
    · exact h c hc
    · rw [List.mem_singleton.1 hc]
      exact ⟨rfl, rfl⟩

theorem chertFold_call_args (env : Env) (path : String) (opts : Nat)
    (out : Bool) (lastdoc : Nat) (ts : List String) (st : ChertSt)
    (h : ∀ c ∈ callsOf st.events, c.lastDocid = lastdoc ∧ c.rev.isSome = true) :
    ∀ c ∈ callsOf ((ts.foldl (chertTableStep env path opts out lastdoc) st).events),
      c.lastDocid = lastdoc ∧ c.rev.isSome = true :=
  foldl_preserve _
    (fun s => ∀ c ∈ callsOf s.events, c.lastDocid = lastdoc ∧ c.rev.isSome = true)
    (fun s t hs => chertTableStep_call_args env path opts out lastdoc s t hs)
    ts st h

theorem dchain_append (env : Env) (out : Bool) :
    ∀ (L : List ChertCall) (d : DoclensVec) (c : ChertCall),
      dchain env out d L → c.doclens = dlast env out d L →
      dchain env out d (L ++ [c])
  | [], _, _, _, h2 => ⟨h2, trivial⟩
  | _ :: L, _, c, ⟨h1, hrest⟩, h2 =>
    ⟨h1, dchain_append env out L _ c hrest h2⟩

theorem dlast_append (env : Env) (out : Bool) :
    ∀ (L : List ChertCall) (d : DoclensVec) (c : ChertCall),
      dlast env out d (L ++ [c]) = chertCallOut env out c
  | [], _, _ => rfl
  | _ :: L, _, c => dlast_append env out L _ c

theorem chertTableStep_chain (env : Env) (path : String) (opts : Nat)
    (out : Bool) (lastdoc : Nat) (d0 : DoclensVec) (st : ChertSt) (t : String)
    (h : dchain env out d0 (callsOf st.events) ∧
      st.doclens = dlast env out d0 (callsOf st.events)) :
    dchain env out d0 (callsOf (chertTableStep env path opts out lastdoc st t).events) ∧
      (chertTableStep env path opts out lastdoc st t).doclens
        = dlast env out d0 (callsOf (chertTableStep env path opts out lastdoc st t).events) := by
  unfold chertTableStep
  split
  · have hcalls : callsOf (st.events ++ headerEvents out t ++ skipEvents out t)
        = callsOf st.events := by
      rw [callsOf_append, callsOf_append, callsOf_headerEvents, callsOf_skipEvents,
        List.append_nil, List.append_nil]
    constructor
    · show dchain env out d0 (callsOf (st.events ++ headerEvents out t ++ skipEvents out t))
      rw [hcalls]
      exact h.1
    · show st.doclens
        = dlast env out d0 (callsOf (st.events ++ headerEvents out t ++ skipEvents out t))
      rw [hcalls]
      exact h.2
  · have hcalls : callsOf (st.events ++ headerEvents out t ++
        [Event.chertCheck (mkChertCall path opts st lastdoc t)])
        = callsOf st.events ++ [mkChertCall path opts st lastdoc t] := by
      rw [callsOf_append, callsOf_append, callsOf_headerEvents,
        callsOf_single_chert, List.append_nil]
    constructor
    · show dchain env out d0 (callsOf (st.events ++ headerEvents out t ++
        [Event.chertCheck (mkChertCall path opts st lastdoc t)]))
      rw [hcalls]
      exact dchain_append env out _ d0 _ h.1 h.2
    · show (runChertCall env out (mkChertCall path opts st lastdoc t)).2.1
        = dlast env out d0 (callsOf (st.events ++ headerEvents out t ++
          [Event.chertCheck (mkChertCall path opts st lastdoc t)]))
      rw [hcalls, dlast_append]
      rfl

theorem chertFold_chain (env : Env) (path : String) (opts : Nat) (out : Bool)
    (lastdoc : Nat) (d0 : DoclensVec) (ts : List String) (st : ChertSt)
    (h : dchain env out d0 (callsOf st.events) ∧
      st.doclens = dlast env out d0 (callsOf st.events)) :
    dchain env out d0
        (callsOf ((ts.foldl (chertTableStep env path opts out lastdoc) st).events)) ∧
      (ts.foldl (chertTableStep env path opts out lastdoc) st).doclens
        = dlast env out d0
            (callsOf ((ts.foldl (chertTableStep env path opts out lastdoc) st).events)) :=
  foldl_preserve _
    (fun s => dchain env out d0 (callsOf s.events) ∧
      s.doclens = dlast env out d0 (callsOf s.events))
    (fun s t hs => chertTableStep_chain env path opts out lastdoc d0 s t hs)
    ts st h

theorem reserve_doclens_noout (hook : Nat → ReserveOutcome) (d : DoclensVec)
    (l : Nat) : (reserve_doclens hook d l false).2 = [] := by
  unfold reserve_doclens
  split
  · rfl
  · cases hres : hook (l + 1) <;> simp [hres]

theorem chertOpenPhase_events_shape (env : Env) (path : String) (out : Bool)
    (e : Event) (h : e ∈ (chertOpenPhase env path out).1.events) :
    (∃ n, e = .reserveCall n) ∨ ∃ s, e = .msg s := by
  unfold chertOpenPhase at h
  cases henv : env.chertOpen path with
  | ok dl =>
    rw [henv] at h
    simp at h
    rcases h with h | ⟨s, _, hs⟩
    · exact Or.inl ⟨_, h⟩
    · exact Or.inr ⟨s, hs.symm⟩
  | error eo =>
    rw [henv] at h
    cases out
    · simp at h
    · simp at h
      exact Or.inr ⟨_, h⟩

theorem chertOpenPhase_no_msg (env : Env) (path : String) (s : String) :
    Event.msg s ∉ (chertOpenPhase env path false).1.events := by
  unfold chertOpenPhase
  cases henv : env.chertOpen path <;> simp [reserve_doclens_noout]

theorem chertTableStep_skip_mem (env : Env) (path : String) (opts : Nat)
    (lastdoc : Nat) (st : ChertSt) (t : String) (hrec : t ≠ "record")
    (hpost : t ≠ "postlist")
    (hf : env.files (path ++ "/" ++ t ++ ".DB") = false) :
    Event.msg (lazyMsg t) ∈ (chertTableStep env path opts true lastdoc st t).events := by
  unfold chertTableStep
  rw [if_pos ⟨hrec, hpost, hf⟩]
  simp [headerEvents, skipEvents]

theorem changesLoop_ok (env : Env) (path : String)
    (hok : ∀ f, env.glassChanges f = .ok ()) :
    ∀ r, changesLoop env path r = .ok (changesEvList env path r)
  | 0 => rfl
  | r + 1 => by
    unfold changesLoop changesEvList
    by_cases hf : env.files (chFile path (r + 1)) = true
    · rw [if_pos hf, if_pos hf, hok (chFile path (r + 1)),
        changesLoop_ok env path hok r]
      rfl
    · rw [if_neg hf, if_neg hf, changesLoop_ok env path hok r]
      rfl

theorem changesEvList_eq (env : Env) (path : String) :
    ∀ r, changesEvList env path r
      = ((revsDescending r).filter (fun k => env.files (chFile path k))).map
          (fun k => Event.changesCheck k (chFile path k))
  | 0 => rfl
  | r + 1 => by
    unfold changesEvList revsDescending
    rw [changesEvList_eq env path r]
    by_cases hf : env.files (chFile path (r + 1)) = true
    · simp [hf]
    · simp [hf]

theorem changesOf_append (a b : List Event) :
    changesOf (a ++ b) = changesOf a ++ changesOf b := by
  simp [changesOf]

theorem changesOf_msgs (ss : List String) :
    changesOf (ss.map Event.msg) = [] := by
  induction ss with
  | nil => rfl
  | cons s ss ih => simp [changesOf, List.filterMap_cons] at ih ⊢

theorem changesOf_changesEvList (env : Env) (path : String) :
    ∀ r, changesOf (changesEvList env path r)
      = ((revsDescending r).filter (fun k => env.files (chFile path k))).map
          (fun k => (k, chFile path k))
  | 0 => rfl
  | r + 1 => by
    unfold changesEvList revsDescending
    rw [changesOf_append, changesOf_changesEvList env path r]
    by_cases hf : env.files (chFile path (r + 1)) = true <;>
      simp [hf, changesOf]

theorem revsDescending_mem_le : ∀ r, ∀ x ∈ revsDescending r, x ≤ r
  | 0, x, hx => by simp [revsDescending] at hx
  | r + 1, x, hx => by
    rcases List.mem_cons.1 hx with h | h
    · exact h ▸ Nat.le_refl _
    · exact Nat.le_succ_of_le (revsDescending_mem_le r x h)

theorem revsDescending_pairwise :
    ∀ r, (revsDescending r).Pairwise (fun a b => b < a)
  | 0 => List.Pairwise.nil
  | r + 1 => by
    unfold revsDescending
    refine List.Pairwise.cons ?_ (revsDescending_pairwise r)
    intro x hx
    exact Nat.lt_succ_of_le (revsDescending_mem_le r x hx)

theorem errSum_single_glass (env : Env) (out : Bool) (c : GlassCall) :
    errSum env out [Event.glassCheck c] = (runGlassCall env out c).1 := by
  simp [errSum, eventErrors]

theorem errSum_single_reserve (env : Env) (out : Bool) (n : Nat) :
    errSum env out [Event.reserveCall n] = 0 := by
  simp [errSum, eventErrors]

theorem errSum_glassOpenEvs (env : Env) (path : String) (out : Bool) :
    errSum env out (glassOpenEvs env path out) = 0 := by
  unfold glassOpenEvs
  cases env.glassOpen path
  · cases out <;> simp [errSum, eventErrors]
  · rfl

theorem changesOf_glassOpenEvs (env : Env) (path : String) (out : Bool) :
    changesOf (glassOpenEvs env path out) = [] := by
  unfold glassOpenEvs
  cases env.glassOpen path
  · cases out <;> simp [changesOf]
  · rfl

theorem errSum_changesEvList (env : Env) (out : Bool) (path : String) :
    ∀ r, errSum env out (changesEvList env path r) = 0
  | 0 => rfl
  | r + 1 => by
    unfold changesEvList
    rw [errSum_append, errSum_changesEvList env out path r]
    by_cases hf : env.files (chFile path (r + 1)) = true <;>
      simp [hf, errSum, eventErrors]

theorem glassTableStep_pres_errors (env : Env) (dir : String) (ver : Nat × Nat)
    (opts : Nat) (out : Bool) (lastdoc : Nat) (B : Nat)
    (st : Nat × DoclensVec × List Event) (t : String)
    (h : st.1 = B + errSum env out st.2.2) :
    (glassTableStep env dir ver opts out lastdoc st t).1
      = B + errSum env out (glassTableStep env dir ver opts out lastdoc st t).2.2 := by
  show st.1 + (runGlassCall env out (mkGlassCall dir ver opts lastdoc st t)).1
    = B + errSum env out
        (st.2.2 ++ [Event.glassCheck (mkGlassCall dir ver opts lastdoc st t)])
  rw [errSum_append, errSum_single_glass, h]
  omega

theorem glassFold_errors (env : Env) (dir : String) (ver : Nat × Nat)
    (opts : Nat) (out : Bool) (lastdoc : Nat) (B : Nat) (ts : List String)
    (st : Nat × DoclensVec × List Event) (h : st.1 = B + errSum env out st.2.2) :
    (ts.foldl (glassTableStep env dir ver opts out lastdoc) st).1
      = B + errSum env out ((ts.foldl (glassTableStep env dir ver opts out lastdoc) st).2.2) :=
  foldl_preserve _ (fun s => s.1 = B + errSum env out s.2.2)
    (fun s t hs => glassTableStep_pres_errors env dir ver opts out lastdoc B s t hs)
    ts st h

theorem glassFold_changesOf (env : Env) (dir : String) (ver : Nat × Nat)
    (opts : Nat) (out : Bool) (lastdoc : Nat) (C : List (Nat × String))
    (ts : List String) (st : Nat × DoclensVec × List Event)
    (h : changesOf st.2.2 = C) :
    changesOf ((ts.foldl (glassTableStep env dir ver opts out lastdoc) st).2.2) = C :=
  foldl_preserve _ (fun s => changesOf s.2.2 = C)
    (fun s t hs => by
      show changesOf (s.2.2 ++ [Event.glassCheck (mkGlassCall dir ver opts lastdoc s t)]) = C
      rw [changesOf_append]
      simpa [changesOf] using hs)
    ts st h

theorem check_chert (env : Env) (path : String) (opts : Nat) (out : Bool)
    (h : env.files (path ++ "/iamchert") = true) :
    check env path opts out
      = .ok (chertWholeCheck env path (effOpts opts out) out) := by
  unfold check
  rw [if_pos h]

theorem check_glass (env : Env) (path : String) (opts : Nat) (out : Bool)
    (hc : env.files (path ++ "/iamchert") = false)
    (hg : env.files (path ++ "/iamglass") = true) :
    check env path opts out = glassWholeCheck env path (effOpts opts out) out := by
  unfold check
  rw [if_neg (by simp [hc]), if_pos hg]

theorem check_bare (env : Env) (path : String) (opts : Nat) (out : Bool)
    (hc : env.files (path ++ "/iamchert") = false)
    (hg : env.files (path ++ "/iamglass") = false) :
    check env path opts out = bareCheck env path (effOpts opts out) out := by
  unfold check
  rw [if_neg (by simp [hc]), if_neg (by simp [hg])]

theorem errSum_chertFixEvents (env : Env) (path : String) (opts : Nat)
    (out : Bool) : errSum env out (chertFixEvents env path opts out) = 0 := by
  unfold chertFixEvents
  split
  · cases env.chertVersionOk path <;> simp [errSum, eventErrors]
  · rfl

theorem chertFixEvents_shape (env : Env) (path : String) (opts : Nat)
    (out : Bool) (e : Event) (h : e ∈ chertFixEvents env path opts out) :
    e = .versionReadAndCheck ∨ e = .versionCreate := by
  unfold chertFixEvents at h
  split at h
  · rcases List.mem_cons.1 h with h' | h'
    · exact Or.inl h'
    · cases hok : env.chertVersionOk path <;> rw [hok] at h'
      · simp at h'
        exact Or.inr h'
      · simp at h'
  · simp at h

theorem callsOf_chertFixEvents (env : Env) (path : String) (opts : Nat)
    (out : Bool) : callsOf (chertFixEvents env path opts out) = [] := by
  unfold chertFixEvents
  split
  · cases env.chertVersionOk path <;> simp [callsOf]
  · rfl

theorem callNamesOf_append (a b : List Event) :
    callNamesOf (a ++ b) = callNamesOf a ++ callNamesOf b := by
  unfold callNamesOf
  rw [callsOf_append, List.map_append]

theorem callsOf_chertOpenPhase (env : Env) (path : String) (out : Bool) :
    callsOf (chertOpenPhase env path out).1.events = [] := by
  unfold chertOpenPhase
  cases henv : env.chertOpen path
  · cases out <;> simp [callsOf]
  · simp [callsOf]

theorem errSum_chertOpenPhase (env : Env) (path : String) (out : Bool) :
    errSum env out (chertOpenPhase env path out).1.events = 0 := by
  unfold chertOpenPhase
  cases henv : env.chertOpen path
  · cases out <;> simp [errSum, eventErrors]
  · rw [errSum_append, errSum_single_reserve, errSum_msgs]

theorem effOpts_fix (opts : Nat) (out : Bool) :
    effOpts opts out &&& DBCHECK_FIX = opts &&& DBCHECK_FIX := by
  unfold effOpts
  cases out
  · show opts &&& DBCHECK_FIX &&& DBCHECK_FIX = opts &&& DBCHECK_FIX
    rw [Nat.and_assoc, show DBCHECK_FIX &&& DBCHECK_FIX = DBCHECK_FIX from by decide]
  · rfl

theorem chertTablesResult_no_fix_events (env : Env) (path : String)
    (opts : Nat) (out : Bool) :
    Event.versionReadAndCheck ∉ (chertTablesResult env path opts out).events ∧
    Event.versionCreate ∉ (chertTablesResult env path opts out).events := by
  constructor <;>
  · unfold chertTablesResult chertTablePhase
    apply chertFold_not_mem
    · intro s h
      cases h
    · intro c h
      cases h
    · intro h
      rcases chertOpenPhase_events_shape env path out _ h with ⟨n, h'⟩ | ⟨s, h'⟩ <;>
        cases h'

/- ------------------------------------------------------------------ -/
/- The claims.                                                         -/
/- ------------------------------------------------------------------ -/

/-- C1: the doclen reservation helper attempts no allocation and reserves
nothing when last_docid reaches the 1 GiB threshold 0x40000000 /
sizeof(termcount) (equivalently, when last_docid * sizeof(termcount) would
reach 2^30 bytes); strictly below the threshold it attempts to reserve
last_docid + 1 elements, so a successful reservation leaves capacity at
least last_docid + 1; a bad_alloc or length_error is swallowed, with a
distinct message per cause emitted only when a sink is attached; and the
helper never raises the error count — a chert whole-database check whose
open succeeds and whose table checkers report zero errors returns zero
errors whatever the allocator hook does. -/
theorem C1_bounded_allocator :
    (∀ (hook : Nat → ReserveOutcome) (d : DoclensVec) (l : Nat) (out : Bool),
      doclenThreshold ≤ l →
      reserve_doclens hook d l out = (d, if out then [tooLargeMsg] else [])) ∧
    (∀ l : Nat, doclenThreshold ≤ l ↔ 2 ^ 30 ≤ l * termcountSize) ∧
    (∀ (hook : Nat → ReserveOutcome) (d : DoclensVec) (l : Nat) (out : Bool),
      l < doclenThreshold → hook (l + 1) = .ok →
      reserve_doclens hook d l out = ({ d with cap := max d.cap (l + 1) }, []) ∧
        l + 1 ≤ (reserve_doclens hook d l out).1.cap) ∧
    (∀ (hook : Nat → ReserveOutcome) (d : DoclensVec) (l : Nat) (out : Bool),
      l < doclenThreshold → hook (l + 1) = .badAlloc →
      reserve_doclens hook d l out = (d, if out then [allocFailMsg] else [])) ∧
    (∀ (hook : Nat → ReserveOutcome) (d : DoclensVec) (l : Nat) (out : Bool),
      l < doclenThreshold → hook (l + 1) = .lengthError →
      reserve_doclens hook d l out = (d, if out then [lengthFailMsg] else [])) ∧
    (tooLargeMsg ≠ allocFailMsg ∧ tooLargeMsg ≠ lengthFailMsg ∧
      allocFailMsg ≠ lengthFailMsg) ∧
    (∀ (env : Env) (path : String) (opts : Nat) (out : Bool) (l r : Nat),
      env.files (path ++ "/iamchert") = true →
      env.chertOpen path = .ok (l, r) →
      (∀ n p rv o d ld ou, (env.chertTable n p rv o d ld ou).1 = 0) →
      ∃ evs, check env path opts out = .ok (0, evs)) := by
  refine ⟨?_, ?_, ?_, ?_, ?_, ⟨?_, ?_, ?_⟩, ?_⟩
  · intro hook d l out h
    unfold reserve_doclens
    rw [if_pos h]
  · intro l
    simp only [doclenThreshold, termcountSize]
    norm_num
    omega
  · intro hook d l out h1 h2
    unfold reserve_doclens
    rw [if_neg (not_le.2 h1), h2]
    exact ⟨rfl, Nat.le_max_right _ _⟩
  · intro hook d l out h1 h2
    unfold reserve_doclens
    rw [if_neg (not_le.2 h1), h2]
  · intro hook d l out h1 h2
    unfold reserve_doclens
    rw [if_neg (not_le.2 h1), h2]
  · decide
  · decide
  · decide
  · intro env path opts out l r hfile hopen htab
    rw [check_chert env path opts out hfile]
    refine ⟨(chertWholeCheck env path (effOpts opts out) out).2, ?_⟩
    have hop : (chertOpenPhase env path out).1.errors = 0 := by
      unfold chertOpenPhase
      rw [hopen]
    have hst : (chertTablesResult env path (effOpts opts out) out).errors = 0 := by
      unfold chertTablesResult chertTablePhase
      apply foldl_preserve _ (fun s : ChertSt => s.errors = 0)
      · intro s t hs
        unfold chertTableStep
        split
        · exact hs
        · show s.errors + (runChertCall env out (mkChertCall path (effOpts opts out) s
            (chertOpenPhase env path out).2 t)).1 = 0
          rw [hs, runChertCall, htab]
      · exact hop
    show Except.ok (chertWholeCheck env path (effOpts opts out) out) = _
    unfold chertWholeCheck
    rw [hst]

/-- C10: in a glass whole-database check the version record is read outside
any exception handler: when GlassVersion::read throws, check propagates the
exception and returns no error count — even though the immediately
preceding openability probe tolerates failure, counting exactly one error
and continuing. -/
theorem C10_version_read_propagates (env : Env) (path : String) (opts : Nat)
    (out : Bool)
    (hc : env.files (path ++ "/iamchert") = false)
    (hg : env.files (path ++ "/iamglass") = true) :
    (∀ e, env.glassVersionRead path = .error e →
      check env path opts out = .error (.versionFileError e)) ∧
    (∀ s ver, env.glassOpen path = .error s → env.glassVersionRead path = .ok ver →
      (∀ f, env.glassChanges f = .ok ()) →
      ∃ errs evs, check env path opts out = .ok (errs, evs) ∧
        errs = 1 + errSum env out evs) := by
  constructor
  · intro e he
    rw [check_glass env path opts out hc hg]
    unfold glassWholeCheck
    rw [he]
  · intro s ver hopen hver hok
    rw [check_glass env path opts out hc hg]
    unfold glassWholeCheck
    rw [hver]
    dsimp only
    rw [changesLoop_ok env path hok ver.1]
    dsimp only
    refine ⟨_, _, rfl, ?_⟩
    have hphase : (glassTablePhase env path ver (effOpts opts out) out).1
        = 0 + errSum env out ((glassTablePhase env path ver (effOpts opts out) out).2.2) := by
      unfold glassTablePhase
      exact glassFold_errors env path ver (effOpts opts out) out ver.2 0
        glassTables _ rfl
    have hopenerr : glassOpenErrs env path = 1 := by
      unfold glassOpenErrs
      rw [hopen]
    rw [errSum_append, errSum_append, errSum_append, errSum_append,
      errSum_glassOpenEvs, errSum_changesEvList, errSum_single_reserve,
      errSum_msgs, hopenerr, hphase]

/-- C2 counterexample: a chert whole database whose low-level open fails.
The claim says the Bounded Allocator is then called with the placeholder
last_docid, but the completed run records no reserve_doclens call at all —
reserve_doclens sits inside the guarded open block (dbcheck.cc line 113), so
an open failure skips it. -/
theorem C2_counterexample :
    envChertFail.files ("db" ++ "/iamchert") = true ∧
    envChertFail.chertOpen "db" = .error "broken" ∧
    (∃ p, check envChertFail "db" 0 true = .ok p) ∧
    hasReserveCall (check envChertFail "db" 0 true) = false :=
  ⟨by decide, rfl, ⟨_, rfl⟩, by decide⟩

/-- C2 (amended): in a chert whole-database check whose low-level open
fails, exactly one error is recorded for the open failure (the returned
total is 1 plus the per-table calls' contributions), the failure
description is emitted iff a sink is present, the loop still visits all six
tables — record and postlist are always invoked, each lazily created table
exactly when its .DB file exists — every per-table call receives the
maximal placeholder last_docid and a non-NULL rev_ptr, and reserve_doclens
is not called at all; it is called with the obtained last_docid exactly
when the open succeeds. -/
theorem C2_chert_open_failure (env : Env) (path : String) (opts : Nat)
    (out : Bool) (hc : env.files (path ++ "/iamchert") = true) :
    (∀ emsg, env.chertOpen path = .error emsg →
      ∃ errs evs, check env path opts out = .ok (errs, evs) ∧
        errs = 1 + errSum env out evs ∧
        (Event.msg (openFailMsg emsg) ∈ evs ↔ out = true) ∧
        (∀ c ∈ callsOf evs, c.lastDocid = docidMax ∧ c.rev.isSome = true) ∧
        callNamesOf evs
          = ["record", "termlist", "postlist", "position", "spelling",
             "synonym"].filter (invokedB env path) ∧
        (∀ n, Event.reserveCall n ∉ evs)) ∧
    (∀ l r, env.chertOpen path = .ok (l, r) →
      ∃ errs evs, check env path opts out = .ok (errs, evs) ∧
        Event.reserveCall l ∈ evs) := by
  constructor
  · intro emsg hopen
    rw [check_chert env path opts out hc]
    have hop : chertOpenPhase env path out
        = (⟨1, emptyDoclens, 0,
            if out = true then [Event.msg (openFailMsg emsg)] else []⟩, docidMax) := by
      unfold chertOpenPhase
      rw [hopen]
    have hop1 : (chertOpenPhase env path out).1
        = ⟨1, emptyDoclens, 0,
            if out = true then [Event.msg (openFailMsg emsg)] else []⟩ := by
      rw [hop]
    have hop2 : (chertOpenPhase env path out).2 = docidMax := by
      rw [hop]
    refine ⟨_, _, rfl, ?_, ?_, ?_, ?_, ?_⟩
    · -- exactly one error for the open failure
      show (chertTablesResult env path (effOpts opts out) out).errors
        = 1 + errSum env out ((chertTablesResult env path (effOpts opts out) out).events
            ++ chertFixEvents env path (effOpts opts out) out)
      rw [errSum_append, errSum_chertFixEvents]
      unfold chertTablesResult chertTablePhase
      rw [chertFold_errors env path (effOpts opts out) out
        (chertOpenPhase env path out).2 1 chertTables (chertOpenPhase env path out).1
        (by rw [errSum_chertOpenPhase, hop1])]
      omega
    · -- failure description emitted iff a sink is present
      cases out
      · simp only [Bool.false_eq_true, iff_false]
        intro hmem
        rcases List.mem_append.1 hmem with h | h
        · revert h
          show Event.msg (openFailMsg emsg) ∉ (chertTablesResult env path (effOpts opts false) false).events
          unfold chertTablesResult chertTablePhase
          apply chertFold_no_msg
          intro s
          exact chertOpenPhase_no_msg env path s
        · rcases chertFixEvents_shape env path (effOpts opts false) false _ h with h' | h' <;>
            cases h'
      · simp only [iff_true]
        apply List.mem_append_left
        show Event.msg (openFailMsg emsg) ∈ (chertTablesResult env path (effOpts opts true) true).events
        unfold chertTablesResult chertTablePhase
        apply chertFold_mem
        rw [hop1]
        simp
    · -- placeholder last docid and non-NULL rev_ptr on every call
      intro c hcmem
      rw [callsOf_append, callsOf_chertFixEvents, List.append_nil] at hcmem
      revert c hcmem
      show ∀ c ∈ callsOf (chertTablesResult env path (effOpts opts out) out).events,
        c.lastDocid = docidMax ∧ c.rev.isSome = true
      unfold chertTablesResult chertTablePhase
      rw [← hop2]
      apply chertFold_call_args
      rw [callsOf_chertOpenPhase]
      intro c hcon
      simp at hcon
    · -- the six tables are visited in order; invoked exactly as mandated
      rw [callNamesOf_append]
      have hfix : callNamesOf (chertFixEvents env path (effOpts opts out) out) = [] := by
        unfold callNamesOf
        rw [callsOf_chertFixEvents]
        rfl
      rw [hfix, List.append_nil]
      unfold chertTablesResult chertTablePhase
      rw [chertFold_names]
      have hopn : callNamesOf (chertOpenPhase env path out).1.events = [] := by
        unfold callNamesOf
        rw [callsOf_chertOpenPhase]
        rfl
      rw [hopn]
      simp [chertTables]
    · -- no reserve_doclens call
      intro n hmem
      rcases List.mem_append.1 hmem with h | h
      · revert h
        show Event.reserveCall n ∉ (chertTablesResult env path (effOpts opts out) out).events
        unfold chertTablesResult chertTablePhase
        apply chertFold_not_mem
        · intro s h'
          cases h'
        · intro c h'
          cases h'
        · rw [hop1]
          cases out <;> simp
      · rcases chertFixEvents_shape env path (effOpts opts out) out _ h with h' | h' <;>
          cases h'
  · intro l r hopen
    rw [check_chert env path opts out hc]
    refine ⟨_, _, rfl, ?_⟩
    apply List.mem_append_left
    show Event.reserveCall l ∈ (chertTablesResult env path (effOpts opts out) out).events
    unfold chertTablesResult chertTablePhase
    apply chertFold_mem
    unfold chertOpenPhase
    rw [hopen]
    simp

/-- C3: in a chert whole-database check the metadata/version-record repair
(read_and_check, with create on a DatabaseError) is attempted iff
DBCHECK_FIX is set and the table loop added zero errors over the count
recorded just before it — an earlier open-failure error does not block
repair — and the record is recreated exactly when additionally
read_and_check fails; in every other case the metadata record is never
touched. -/
theorem C3_fix_condition (env : Env) (path : String) (opts : Nat) (out : Bool)
    (hc : env.files (path ++ "/iamchert") = true) :
    ∃ errs evs, check env path opts out = .ok (errs, evs) ∧
      ((Event.versionReadAndCheck ∈ evs) ↔
        ((chertTablesResult env path (effOpts opts out) out).errors
            = (chertOpenPhase env path out).1.errors ∧
          opts &&& DBCHECK_FIX ≠ 0)) ∧
      ((Event.versionCreate ∈ evs) ↔
        ((chertTablesResult env path (effOpts opts out) out).errors
            = (chertOpenPhase env path out).1.errors ∧
          opts &&& DBCHECK_FIX ≠ 0 ∧ env.chertVersionOk path = false)) := by
  rw [check_chert env path opts out hc]
  refine ⟨_, _, rfl, ?_, ?_⟩
  · rw [List.mem_append]
    constructor
    · intro h
      rcases h with h | h
      · exact absurd h (chertTablesResult_no_fix_events env path (effOpts opts out) out).1
      · unfold chertFixEvents at h
        split at h
        · rename_i hcondition
          exact ⟨hcondition.1, by rw [← effOpts_fix opts out]; exact hcondition.2⟩
        · simp at h
    · intro h
      right
      unfold chertFixEvents
      rw [if_pos ⟨h.1, by rw [effOpts_fix opts out]; exact h.2⟩]
      exact List.mem_cons_self _ _
  · rw [List.mem_append]
    constructor
    · intro h
      rcases h with h | h
      · exact absurd h (chertTablesResult_no_fix_events env path (effOpts opts out) out).2
      · unfold chertFixEvents at h
        split at h
        · rename_i hcondition
          rcases List.mem_cons.1 h with h' | h'
          · cases h'
          · cases hok : env.chertVersionOk path
            · exact ⟨hcondition.1,
                by rw [← effOpts_fix opts out]; exact hcondition.2, rfl⟩
            · rw [hok] at h'
              simp at h'
        · simp at h
    · intro h
      right
      unfold chertFixEvents
      rw [if_pos ⟨h.1, by rw [effOpts_fix opts out]; exact h.2.1⟩, h.2.2]
      simp

/-- C4: a chert whole-database check visits the tables in exactly the order
record, termlist, postlist, position, spelling, synonym — the per-table
calls made are precisely the invoked ones, in that order, so termlist
strictly precedes postlist — and a single doclens storage is threaded
through the run: starting from the open phase's vector, every per-table
call receives exactly the vector the previous call left behind; in
particular the storage the termlist call populated is the one handed to the
postlist call. -/
theorem C4_table_order_and_doclens (env : Env) (path : String) (opts : Nat)
    (out : Bool) (hc : env.files (path ++ "/iamchert") = true) :
    ∃ errs evs, check env path opts out = .ok (errs, evs) ∧
      callNamesOf evs
        = ["record", "termlist", "postlist", "position", "spelling",
           "synonym"].filter (invokedB env path) ∧
      dchain env out (chertOpenPhase env path out).1.doclens (callsOf evs) := by
  rw [check_chert env path opts out hc]
  refine ⟨_, _, rfl, ?_, ?_⟩
  · rw [callNamesOf_append]
    have hfix : callNamesOf (chertFixEvents env path (effOpts opts out) out) = [] := by
      unfold callNamesOf
      rw [callsOf_chertFixEvents]
      rfl
    rw [hfix, List.append_nil]
    unfold chertTablesResult chertTablePhase
    rw [chertFold_names]
    have hopn : callNamesOf (chertOpenPhase env path out).1.events = [] := by
      unfold callNamesOf
      rw [callsOf_chertOpenPhase]
      rfl
    rw [hopn]
    simp [chertTables]
  · rw [callsOf_append, callsOf_chertFixEvents, List.append_nil]
    refine (?_ :
      dchain env out (chertOpenPhase env path out).1.doclens
          (callsOf (chertTablesResult env path (effOpts opts out) out).events) ∧
        (chertTablesResult env path (effOpts opts out) out).doclens
          = dlast env out (chertOpenPhase env path out).1.doclens
              (callsOf (chertTablesResult env path (effOpts opts out) out).events)).1
    unfold chertTablesResult chertTablePhase
    apply chertFold_chain
    rw [callsOf_chertOpenPhase]
    exact ⟨trivial, rfl⟩

/-- C5: in a chert whole-database check, each lazily created table
(termlist, position, spelling, synonym) whose .DB file is absent is not
checked — no per-table call carries its name — and its skip message
("Not present." for termlist, "Lazily created, and not yet used." for the
others) is written iff a sink is attached; record and postlist are invoked
unconditionally with no existence pre-test; and the returned error count is
the open phase's errors plus the invoked calls' contributions, a skipped
table contributing nothing. -/
theorem C5_lazy_tables (env : Env) (path : String) (opts : Nat) (out : Bool)
    (hc : env.files (path ++ "/iamchert") = true) :
    ∃ errs evs, check env path opts out = .ok (errs, evs) ∧
      (∀ t ∈ (["termlist", "position", "spelling", "synonym"] : List String),
        env.files (path ++ "/" ++ t ++ ".DB") = false →
        (∀ c ∈ callsOf evs, c.name ≠ t) ∧
        (Event.msg (lazyMsg t) ∈ evs ↔ out = true)) ∧
      "record" ∈ callNamesOf evs ∧ "postlist" ∈ callNamesOf evs ∧
      lazyMsg "termlist" = "Not present.\n" ∧
      lazyMsg "position" = "Lazily created, and not yet used.\n" ∧
      errs = (chertOpenPhase env path out).1.errors + errSum env out evs := by
  rw [check_chert env path opts out hc]
  have hnames : callNamesOf ((chertTablesResult env path (effOpts opts out) out).events
      ++ chertFixEvents env path (effOpts opts out) out)
      = chertTables.filter (invokedB env path) := by
    rw [callNamesOf_append]
    have hfix : callNamesOf (chertFixEvents env path (effOpts opts out) out) = [] := by
      unfold callNamesOf
      rw [callsOf_chertFixEvents]
      rfl
    rw [hfix, List.append_nil]
    unfold chertTablesResult chertTablePhase
    rw [chertFold_names]
    have hopn : callNamesOf (chertOpenPhase env path out).1.events = [] := by
      unfold callNamesOf
      rw [callsOf_chertOpenPhase]
      rfl
    rw [hopn]
    simp
  refine ⟨_, _, rfl, ?_, ?_, ?_, rfl, rfl, ?_⟩
  · intro t ht hf
    constructor
    · intro c hcmem hname
      have : c.name ∈ callNamesOf ((chertTablesResult env path (effOpts opts out) out).events
          ++ chertFixEvents env path (effOpts opts out) out) := by
        unfold callNamesOf
        exact List.mem_map_of_mem ChertCall.name hcmem
      rw [hnames, hname] at this
      have hinv := (List.mem_filter.1 this).2
      rw [(invokedB_eq_false env path t).2 ?_] at hinv
      · exact Bool.false_ne_true hinv
      · fin_cases ht
        · exact ⟨by decide, by decide, hf⟩
        · exact ⟨by decide, by decide, hf⟩
        · exact ⟨by decide, by decide, hf⟩
        · exact ⟨by decide, by decide, hf⟩
    · cases out
      · simp only [Bool.false_eq_true, iff_false]
        intro hmem
        rcases List.mem_append.1 hmem with h | h
        · revert h
          show Event.msg (lazyMsg t) ∉ (chertTablesResult env path (effOpts opts false) false).events
          unfold chertTablesResult chertTablePhase
          apply chertFold_no_msg
          intro s
          exact chertOpenPhase_no_msg env path s
        · rcases chertFixEvents_shape env path (effOpts opts false) false _ h with h' | h' <;>
            cases h'
      · simp only [iff_true]
        apply List.mem_append_left
        show Event.msg (lazyMsg t) ∈ (chertTablesResult env path (effOpts opts true) true).events
        unfold chertTablesResult chertTablePhase chertTables
        simp only [List.foldl_cons, List.foldl_nil]
        fin_cases ht
        · apply chertTableStep_mem
          apply chertTableStep_mem
          apply chertTableStep_mem
          apply chertTableStep_mem
          exact chertTableStep_skip_mem env path (effOpts opts true) _ _ "termlist"
            (by decide) (by decide) hf
        · apply chertTableStep_mem
          apply chertTableStep_mem
          exact chertTableStep_skip_mem env path (effOpts opts true) _ _ "position"
            (by decide) (by decide) hf
        · apply chertTableStep_mem
          exact chertTableStep_skip_mem env path (effOpts opts true) _ _ "spelling"
            (by decide) (by decide) hf
        · exact chertTableStep_skip_mem env path (effOpts opts true) _ _ "synonym"
            (by decide) (by decide) hf
  · rw [hnames]
    exact List.mem_filter.2 ⟨by simp [chertTables], rfl⟩
  · rw [hnames]
    exact List.mem_filter.2 ⟨by simp [chertTables], rfl⟩
  · rw [errSum_append, errSum_chertFixEvents]
    unfold chertTablesResult chertTablePhase
    rw [chertFold_errors env path (effOpts opts out) out
      (chertOpenPhase env path out).2 ((chertOpenPhase env path out).1.errors)
      chertTables (chertOpenPhase env path out).1
      (by rw [errSum_chertOpenPhase]; omega)]
    omega

/-- C6: for a path with no iamchert or iamglass marker, the retired-format
markers are tested in the fixed precedence iamflint, iambrass, record_DB;
the first one present makes check throw the matching distinct
FeatureUnavailableError (flint/1.3.0, brass/1.3.2, quartz/1.1.0) before any
table-level work, whatever the options bitmask or sink; and a bare path
resolved to the chert backend whose containing directory holds iamflint or
iambrass throws that retired-format error instead of checking the table. -/
theorem C6_retired_formats (env : Env) (path : String) (opts : Nat) (out : Bool)
    (hc : env.files (path ++ "/iamchert") = false)
    (hg : env.files (path ++ "/iamglass") = false) :
    (env.files (path ++ "/iamflint") = true →
      check env path opts out = .error (.featureUnavailable flintMsg)) ∧
    (env.files (path ++ "/iamflint") = false →
      env.files (path ++ "/iambrass") = true →
      check env path opts out = .error (.featureUnavailable brassMsg)) ∧
    (env.files (path ++ "/iamflint") = false →
      env.files (path ++ "/iambrass") = false →
      env.files (path ++ "/record_DB") = true →
      check env path opts out = .error (.featureUnavailable quartzMsg)) ∧
    (∀ fn, env.files (path ++ "/iamflint") = false →
      env.files (path ++ "/iambrass") = false →
      env.files (path ++ "/record_DB") = false →
      resolveBackend env path = .ok (fn, .chert) →
      env.files ((splitLastSlash fn).1 ++ "/iamflint") = true →
      check env path opts out = .error (.featureUnavailable flintMsg)) ∧
    (∀ fn, env.files (path ++ "/iamflint") = false →
      env.files (path ++ "/iambrass") = false →
      env.files (path ++ "/record_DB") = false →
      resolveBackend env path = .ok (fn, .chert) →
      env.files ((splitLastSlash fn).1 ++ "/iamflint") = false →
      env.files ((splitLastSlash fn).1 ++ "/iambrass") = true →
      check env path opts out = .error (.featureUnavailable brassMsg)) := by
  refine ⟨?_, ?_, ?_, ?_, ?_⟩
  · intro h1
    rw [check_bare env path opts out hc hg]
    unfold bareCheck
    rw [if_pos h1]
  · intro h1 h2
    rw [check_bare env path opts out hc hg]
    unfold bareCheck
    rw [if_neg (by simp [h1]), if_pos h2]
  · intro h1 h2 h3
    rw [check_bare env path opts out hc hg]
    unfold bareCheck
    rw [if_neg (by simp [h1]), if_neg (by simp [h2]), if_pos h3]
  · intro fn h1 h2 h3 hres hdir
    rw [check_bare env path opts out hc hg]
    unfold bareCheck
    rw [if_neg (by simp [h1]), if_neg (by simp [h2]), if_neg (by simp [h3]), hres]
    unfold bareTableRun
    dsimp only
    rw [if_pos hdir]
  · intro fn h1 h2 h3 hres hdf hdb
    rw [check_bare env path opts out hc hg]
    unfold bareCheck
    rw [if_neg (by simp [h1]), if_neg (by simp [h2]), if_neg (by simp [h3]), hres]
    unfold bareTableRun
    dsimp only
    rw [if_neg (by simp [hdf]), if_pos hdb]

/-- C7: bare-table resolution strips exactly one of a trailing ".", the
suffix ".DB" (fixing the chert backend), or ".glass" (fixing glass); when no
backend-fixing suffix was stripped, <base>.DB is probed before <base>.glass
— so chert wins when both siblings exist — and when neither probe succeeds
check throws DatabaseError("Not a Xapian database or database table");
whatever resolution produced, check runs the single-table check on it. -/
theorem C7_bare_resolution (env : Env) (path : String) (opts : Nat) (out : Bool)
    (hc : env.files (path ++ "/iamchert") = false)
    (hg : env.files (path ++ "/iamglass") = false)
    (hf : env.files (path ++ "/iamflint") = false)
    (hb : env.files (path ++ "/iambrass") = false)
    (hq : env.files (path ++ "/record_DB") = false) :
    (strEndsWith path "." = true →
      resolveBackend env path
        = (if env.files (strDropRight path 1 ++ ".DB") then
            .ok (strDropRight path 1, .chert)
          else if env.files (strDropRight path 1 ++ ".glass") then
            .ok (strDropRight path 1, .glass)
          else .error (.databaseError notDbMsg))) ∧
    (strEndsWith path "." = false → strEndsWith path ".DB" = true →
      resolveBackend env path = .ok (strDropRight path 3, .chert)) ∧
    (strEndsWith path "." = false → strEndsWith path ".DB" = false →
      strEndsWith path ".glass" = true →
      resolveBackend env path = .ok (strDropRight path 6, .glass)) ∧
    (strEndsWith path "." = false → strEndsWith path ".DB" = false →
      strEndsWith path ".glass" = false → env.files (path ++ ".DB") = true →
      resolveBackend env path = .ok (path, .chert)) ∧
    (strEndsWith path "." = false → strEndsWith path ".DB" = false →
      strEndsWith path ".glass" = false → env.files (path ++ ".DB") = false →
      env.files (path ++ ".glass") = true →
      resolveBackend env path = .ok (path, .glass)) ∧
    (strEndsWith path "." = false → strEndsWith path ".DB" = false →
      strEndsWith path ".glass" = false → env.files (path ++ ".DB") = false →
      env.files (path ++ ".glass") = false →
      check env path opts out = .error (.databaseError notDbMsg)) ∧
    (∀ fn b, resolveBackend env path = .ok (fn, b) →
      check env path opts out = bareTableRun env (effOpts opts out) out (fn, b)) := by
  refine ⟨?_, ?_, ?_, ?_, ?_, ?_, ?_⟩
  · intro h1
    unfold resolveBackend stripSuffix
    rw [if_pos h1]
  · intro h1 h2
    unfold resolveBackend stripSuffix
    rw [if_neg (by simp [h1]), if_pos h2]
  · intro h1 h2 h3
    unfold resolveBackend stripSuffix
    rw [if_neg (by simp [h1]), if_neg (by simp [h2]), if_pos h3]
  · intro h1 h2 h3 h4
    unfold resolveBackend stripSuffix
    rw [if_neg (by simp [h1]), if_neg (by simp [h2]), if_neg (by simp [h3])]
    dsimp only
    rw [if_pos h4]
  · intro h1 h2 h3 h4 h5
    unfold resolveBackend stripSuffix
    rw [if_neg (by simp [h1]), if_neg (by simp [h2]), if_neg (by simp [h3])]
    dsimp only
    rw [if_neg (by simp [h4]), if_pos h5]
  · intro h1 h2 h3 h4 h5
    rw [check_bare env path opts out hc hg]
    unfold bareCheck
    rw [if_neg (by simp [hf]), if_neg (by simp [hb]), if_neg (by simp [hq])]
    have hres : resolveBackend env path = .error (.databaseError notDbMsg) := by
      unfold resolveBackend stripSuffix
      rw [if_neg (by simp [h1]), if_neg (by simp [h2]), if_neg (by simp [h3])]
      dsimp only
      rw [if_neg (by simp [h4]), if_neg (by simp [h5])]
    rw [hres]
  · intro fn b hres
    rw [check_bare env path opts out hc hg]
    unfold bareCheck
    rw [if_neg (by simp [hf]), if_neg (by simp [hb]), if_neg (by simp [hq]), hres]

/-- C8: in a glass whole-database check with current revision rev, the
changes pass checks exactly the files <path>/changes<r> that exist on disk,
for r descending from rev to 1 (a revision of 0 visits nothing); the
visited revisions are strictly decreasing, a missing changes file neither
stops the descent nor contributes an error, and the returned count is the
open probe's contribution plus the per-event sum, in which every changes
check counts zero. -/
theorem C8_changes_descent (env : Env) (path : String) (opts : Nat) (out : Bool)
    (rev ld : Nat)
    (hc : env.files (path ++ "/iamchert") = false)
    (hg : env.files (path ++ "/iamglass") = true)
    (hver : env.glassVersionRead path = .ok (rev, ld))
    (hok : ∀ f, env.glassChanges f = .ok ()) :
    ∃ errs evs, check env path opts out = .ok (errs, evs) ∧
      changesOf evs
        = ((revsDescending rev).filter (fun k => env.files (chFile path k))).map
            (fun k => (k, chFile path k)) ∧
      ((changesOf evs).map Prod.fst).Pairwise (fun a b => b < a) ∧
      (rev = 0 → changesOf evs = []) ∧
      errs = glassOpenErrs env path + errSum env out evs ∧
      (∀ r f, (r, f) ∈ changesOf evs →
        eventErrors env out (.changesCheck r f) = 0) := by
  rw [check_glass env path opts out hc hg]
  unfold glassWholeCheck
  rw [hver]
  dsimp only
  rw [changesLoop_ok env path hok rev]
  dsimp only
  have htp : changesOf ((glassTablePhase env path (rev, ld) (effOpts opts out) out).2.2)
      = [] := by
    unfold glassTablePhase
    exact glassFold_changesOf env path (rev, ld) (effOpts opts out) out
      (rev, ld).2 [] glassTables _ rfl
  have hch : changesOf (glassOpenEvs env path out ++ changesEvList env path rev
      ++ [Event.reserveCall ld] ++ (glassReserve env (rev, ld) out).2.map Event.msg
      ++ (glassTablePhase env path (rev, ld) (effOpts opts out) out).2.2)
      = ((revsDescending rev).filter (fun k => env.files (chFile path k))).map
          (fun k => (k, chFile path k)) := by
    rw [changesOf_append, changesOf_append, changesOf_append, changesOf_append,
      changesOf_glassOpenEvs, changesOf_changesEvList, changesOf_msgs, htp]
    simp [changesOf]
  refine ⟨glassOpenErrs env path + (glassTablePhase env path (rev, ld) (effOpts opts out) out).1,
    glassOpenEvs env path out ++ changesEvList env path rev
      ++ [Event.reserveCall ld] ++ (glassReserve env (rev, ld) out).2.map Event.msg
      ++ (glassTablePhase env path (rev, ld) (effOpts opts out) out).2.2,
    rfl, hch, ?_, ?_, ?_, ?_⟩
  · rw [hch, List.map_map]
    have hid : (Prod.fst ∘ fun k => ((k, chFile path k) : Nat × String)) = id := rfl
    rw [hid, List.map_id]
    exact List.Pairwise.sublist (List.filter_sublist _) (revsDescending_pairwise rev)
  · intro h0
    rw [hch, h0]
    rfl
  · have hphase : (glassTablePhase env path (rev, ld) (effOpts opts out) out).1
        = 0 + errSum env out
            ((glassTablePhase env path (rev, ld) (effOpts opts out) out).2.2) := by
      unfold glassTablePhase
      exact glassFold_errors env path (rev, ld) (effOpts opts out) out
        (rev, ld).2 0 glassTables _ rfl
    rw [errSum_append, errSum_append, errSum_append, errSum_append,
      errSum_glassOpenEvs, errSum_changesEvList, errSum_single_reserve,
      errSum_msgs, hphase]
  · intro r f hmem
    rfl

/-- C9 counterexample: a bare glass table "g.glass".  The claim says no
revision context is passed to the single per-table call, but check reads
the GlassVersion record of the containing directory — here revision 5 —
and passes it to check_glass_table; the version record carries the current
revision, so the glass call never comes with a null/absent revision. -/
theorem C9_counterexample :
    check envBareGlass "g.glass" 0 true
      = .ok (0, [Event.glassCheck ⟨"g", "", (5, 10), 0, emptyDoclens, docidMax⟩]) ∧
    runNoRevCtx (check envBareGlass "g.glass" 0 true) = false := by
  constructor
  · rfl
  · decide

/-- C9 (amended): a bare single-table check (either backend) sets
last_docid to the maximal placeholder, invokes the per-table checker
exactly once with the lower-cased basename as the table name, and returns
that single call's error count unchanged; the variant-A call carries a NULL
rev_ptr as claimed, but the variant-B call carries the version record read
from the containing directory — a present revision context, not an absent
one. -/
theorem C9_single_table (env : Env) (path : String) (opts : Nat) (out : Bool)
    (hc : env.files (path ++ "/iamchert") = false)
    (hg : env.files (path ++ "/iamglass") = false)
    (hf : env.files (path ++ "/iamflint") = false)
    (hb : env.files (path ++ "/iambrass") = false)
    (hq : env.files (path ++ "/record_DB") = false) :
    (∀ fn, resolveBackend env path = .ok (fn, .chert) →
      env.files ((splitLastSlash fn).1 ++ "/iamflint") = false →
      env.files ((splitLastSlash fn).1 ++ "/iambrass") = false →
      check env path opts out
        = .ok ((runChertCall env out (bareChertCall fn (effOpts opts out))).1,
            [Event.chertCheck (bareChertCall fn (effOpts opts out))]) ∧
      (bareChertCall fn (effOpts opts out)).lastDocid = docidMax ∧
      (bareChertCall fn (effOpts opts out)).rev = none ∧
      (bareChertCall fn (effOpts opts out)).name
        = lowerString (splitLastSlash fn).2) ∧
    (∀ fn ver, resolveBackend env path = .ok (fn, .glass) →
      env.glassVersionRead (splitLastSlash fn).1 = .ok ver →
      check env path opts out
        = .ok ((runGlassCall env out (bareGlassCall fn ver (effOpts opts out))).1,
            [Event.glassCheck (bareGlassCall fn ver (effOpts opts out))]) ∧
      (bareGlassCall fn ver (effOpts opts out)).lastDocid = docidMax ∧
      (bareGlassCall fn ver (effOpts opts out)).version = ver ∧
      eventNoRevCtx (Event.glassCheck (bareGlassCall fn ver (effOpts opts out)))
        = false ∧
      (bareGlassCall fn ver (effOpts opts out)).name
        = lowerString (splitLastSlash fn).2) := by
  constructor
  · intro fn hres hdf hdb
    refine ⟨?_, rfl, rfl, rfl⟩
    rw [check_bare env path opts out hc hg]
    unfold bareCheck
    rw [if_neg (by simp [hf]), if_neg (by simp [hb]), if_neg (by simp [hq]), hres]
    unfold bareTableRun
    dsimp only
    rw [if_neg (by simp [hdf]), if_neg (by simp [hdb])]
  · intro fn ver hres hver
    refine ⟨?_, rfl, rfl, rfl, rfl⟩
    rw [check_bare env path opts out hc hg]
    unfold bareCheck
    rw [if_neg (by simp [hf]), if_neg (by simp [hb]), if_neg (by simp [hq]), hres]
    unfold bareTableRun
    dsimp only
    rw [hver]

/- ------------------------------------------------------------------ -/
/- Witnesses.                                                          -/
/- ------------------------------------------------------------------ -/

/-- Witness for C1: the threshold input is skipped; a small input with a
succeeding hook reaches the requested capacity; and a concrete chert
database whose tables report no errors returns zero errors. -/
theorem C1_bounded_allocator_witness :
    doclenThreshold ≤ doclenThreshold ∧
    reserve_doclens (fun _ => .badAlloc) emptyDoclens doclenThreshold true
      = (emptyDoclens, [tooLargeMsg]) ∧
    (5 : Nat) < doclenThreshold ∧
    5 + 1 ≤ (reserve_doclens (fun _ => .ok) emptyDoclens 5 true).1.cap ∧
    envChert.files ("db" ++ "/iamchert") = true ∧
    envChert.chertOpen "db" = .ok (5, 7) ∧
    ∃ evs, check envChert "db" 0 true = .ok (0, evs) :=
  ⟨Nat.le_refl _,
   C1_bounded_allocator.1 (fun _ => .badAlloc) emptyDoclens doclenThreshold true
     (Nat.le_refl _),
   by decide,
   (C1_bounded_allocator.2.2.1 (fun _ => .ok) emptyDoclens 5 true (by decide) rfl).2,
   by decide, rfl,
   C1_bounded_allocator.2.2.2.2.2.2 envChert "db" 0 true 5 7 (by decide) rfl
     (fun _ _ _ _ _ _ _ => rfl)⟩

/-- Witness for C2 (amended): the chert database "db" whose open fails with
description "broken". -/
theorem C2_chert_open_failure_witness :
    envChertFail.files ("db" ++ "/iamchert") = true ∧
    envChertFail.chertOpen "db" = .error "broken" ∧
    (∃ errs evs, check envChertFail "db" 0 true = .ok (errs, evs) ∧
      errs = 1 + errSum envChertFail true evs ∧
      (Event.msg (openFailMsg "broken") ∈ evs ↔ true = true) ∧
      (∀ c ∈ callsOf evs, c.lastDocid = docidMax ∧ c.rev.isSome = true) ∧
      callNamesOf evs
        = ["record", "termlist", "postlist", "position", "spelling",
           "synonym"].filter (invokedB envChertFail "db") ∧
      (∀ n, Event.reserveCall n ∉ evs)) :=
  ⟨by decide, rfl,
   (C2_chert_open_failure envChertFail "db" 0 true (by decide)).1 "broken" rfl⟩

/-- Witness for C3: the chert database "db" with DBCHECK_FIX set and
error-free tables. -/
theorem C3_fix_condition_witness :
    envChert.files ("db" ++ "/iamchert") = true ∧
    (∃ errs evs, check envChert "db" DBCHECK_FIX true = .ok (errs, evs) ∧
      ((Event.versionReadAndCheck ∈ evs) ↔
        ((chertTablesResult envChert "db" (effOpts DBCHECK_FIX true) true).errors
            = (chertOpenPhase envChert "db" true).1.errors ∧
          DBCHECK_FIX &&& DBCHECK_FIX ≠ 0)) ∧
      ((Event.versionCreate ∈ evs) ↔
        ((chertTablesResult envChert "db" (effOpts DBCHECK_FIX true) true).errors
            = (chertOpenPhase envChert "db" true).1.errors ∧
          DBCHECK_FIX &&& DBCHECK_FIX ≠ 0 ∧
          envChert.chertVersionOk "db" = false))) :=
  ⟨by decide, C3_fix_condition envChert "db" DBCHECK_FIX true (by decide)⟩

/-- Witness for C4: the chert database "db" with only the mandatory tables
on disk. -/
theorem C4_table_order_and_doclens_witness :
    envChert.files ("db" ++ "/iamchert") = true ∧
    (∃ errs evs, check envChert "db" 0 true = .ok (errs, evs) ∧
      callNamesOf evs
        = ["record", "termlist", "postlist", "position", "spelling",
           "synonym"].filter (invokedB envChert "db") ∧
      dchain envChert true (chertOpenPhase envChert "db" true).1.doclens
        (callsOf evs)) :=
  ⟨by decide, C4_table_order_and_doclens envChert "db" 0 true (by decide)⟩

/-- Witness for C5: the chert database "db", where termlist, position,
spelling and synonym are all absent. -/
theorem C5_lazy_tables_witness :
    envChert.files ("db" ++ "/iamchert") = true ∧
    (∃ errs evs, check envChert "db" 0 true = .ok (errs, evs) ∧
      (∀ t ∈ (["termlist", "position", "spelling", "synonym"] : List String),
        envChert.files ("db" ++ "/" ++ t ++ ".DB") = false →
        (∀ c ∈ callsOf evs, c.name ≠ t) ∧
        (Event.msg (lazyMsg t) ∈ evs ↔ true = true)) ∧
      "record" ∈ callNamesOf evs ∧ "postlist" ∈ callNamesOf evs ∧
      lazyMsg "termlist" = "Not present.\n" ∧
      lazyMsg "position" = "Lazily created, and not yet used.\n" ∧
      errs = (chertOpenPhase envChert "db" true).1.errors
        + errSum envChert true evs) :=
  ⟨by decide, C5_lazy_tables envChert "db" 0 true (by decide)⟩

/-- Witness for C6: the directory "f" holding an iamflint marker, and the
bare table "d/t.DB" whose directory holds an iamflint marker. -/
theorem C6_retired_formats_witness :
    envFlint.files ("f" ++ "/iamflint") = true ∧
    check envFlint "f" 0 true = .error (.featureUnavailable flintMsg) ∧
    resolveBackend envBareDirFlint "d/t.DB" = .ok ("d/t", .chert) ∧
    envBareDirFlint.files ((splitLastSlash "d/t").1 ++ "/iamflint") = true ∧
    check envBareDirFlint "d/t.DB" 0 true
      = .error (.featureUnavailable flintMsg) :=
  ⟨by decide,
   (C6_retired_formats envFlint "f" 0 true (by decide) (by decide)).1 (by decide),
   rfl, by decide,
   (C6_retired_formats envBareDirFlint "d/t.DB" 0 true (by decide)
     (by decide)).2.2.2.1 "d/t" (by decide) (by decide) (by decide) rfl
     (by decide)⟩

/-- Witness for C7: the suffixless path "foo" whose .DB and .glass siblings
both exist resolves to chert (the .DB probe runs first), and a path with no
markers and no siblings throws the generic DatabaseError. -/
theorem C7_bare_resolution_witness :
    envBareBoth.files ("foo" ++ ".DB") = true ∧
    envBareBoth.files ("foo" ++ ".glass") = true ∧
    resolveBackend envBareBoth "foo" = .ok ("foo", .chert) ∧
    check envBase "nothing" 0 true
      = .error (.databaseError "Not a Xapian database or database table") :=
  ⟨by decide, by decide,
   (C7_bare_resolution envBareBoth "foo" 0 true (by decide) (by decide)
     (by decide) (by decide) (by decide)).2.2.2.1 (by decide) (by decide)
     (by decide) (by decide),
   (C7_bare_resolution envBase "nothing" 0 true (by decide) (by decide)
     (by decide) (by decide) (by decide)).2.2.2.2.2.1 (by decide) (by decide)
     (by decide) (by decide) (by decide)⟩

/-- Witness for C8: the glass database "g" at revision 3 where only
changes2 survives: exactly revision 2 is checked. -/
theorem C8_changes_descent_witness :
    envGlass.files ("g" ++ "/iamglass") = true ∧
    envGlass.glassVersionRead "g" = .ok (3, 10) ∧
    (∃ errs evs, check envGlass "g" 0 true = .ok (errs, evs) ∧
      changesOf evs
        = ((revsDescending 3).filter (fun k => envGlass.files (chFile "g" k))).map
            (fun k => (k, chFile "g" k)) ∧
      ((changesOf evs).map Prod.fst).Pairwise (fun a b => b < a) ∧
      ((3 : Nat) = 0 → changesOf evs = []) ∧
      errs = glassOpenErrs envGlass "g" + errSum envGlass true evs ∧
      (∀ r f, (r, f) ∈ changesOf evs →
        eventErrors envGlass true (.changesCheck r f) = 0)) :=
  ⟨by decide, rfl,
   C8_changes_descent envGlass "g" 0 true 3 10 (by decide) (by decide) rfl
     (fun _ => rfl)⟩

/-- Witness for C9 (amended): the bare chert table "D/Foo.DB" (lower-cased
to "foo", NULL rev_ptr) and the bare glass table "g.glass" (version record
(5, 10) passed). -/
theorem C9_single_table_witness :
    resolveBackend envBase "D/Foo.DB" = .ok ("D/Foo", .chert) ∧
    (check envBase "D/Foo.DB" 0 true
      = .ok ((runChertCall envBase true (bareChertCall "D/Foo" 0)).1,
          [Event.chertCheck (bareChertCall "D/Foo" 0)]) ∧
      (bareChertCall "D/Foo" 0).lastDocid = docidMax ∧
      (bareChertCall "D/Foo" 0).rev = none ∧
      (bareChertCall "D/Foo" 0).name = lowerString (splitLastSlash "D/Foo").2) ∧
    resolveBackend envBareGlass "g.glass" = .ok ("g", .glass) ∧
    (check envBareGlass "g.glass" 0 true
      = .ok ((runGlassCall envBareGlass true (bareGlassCall "g" (5, 10) 0)).1,
          [Event.glassCheck (bareGlassCall "g" (5, 10) 0)]) ∧
      (bareGlassCall "g" (5, 10) 0).lastDocid = docidMax ∧
      (bareGlassCall "g" (5, 10) 0).version = (5, 10) ∧
      eventNoRevCtx (Event.glassCheck (bareGlassCall "g" (5, 10) 0)) = false ∧
      (bareGlassCall "g" (5, 10) 0).name = lowerString (splitLastSlash "g").2) :=
  ⟨rfl,
   (C9_single_table envBase "D/Foo.DB" 0 true (by decide) (by decide) (by decide)
     (by decide) (by decide)).1 "D/Foo" rfl (by decide) (by decide),
   rfl,
   (C9_single_table envBareGlass "g.glass" 0 true (by decide) (by decide)
     (by decide) (by decide) (by decide)).2 "g" (5, 10) rfl rfl⟩

/-- Witness for C10: the glass database "g" whose version record read
throws "bad": check propagates the failure. -/
theorem C10_version_read_propagates_witness :
    envGlassVerFail.files ("g" ++ "/iamchert") = false ∧
    envGlassVerFail.files ("g" ++ "/iamglass") = true ∧
    envGlassVerFail.glassVersionRead "g" = .error "bad" ∧
    check envGlassVerFail "g" 0 true = .error (.versionFileError "bad") :=
  ⟨by decide, by decide, rfl,
   (C10_version_read_propagates envGlassVerFail "g" 0 true (by decide)
     (by decide)).1 "bad" rfl⟩

end DbCheck
